import Mathlib

/-!
# RTimu displacement tracker: MPU6050 driver and motion integrator

A shallow embedding of `mpu6050.c` and of the acquisition, integration and command
listener code of `app_tasks.c`, followed by theorems about it.

Modelling conventions.
* C `float`/`double` values are rationals (`ℚ`). The functions that compute with them are
  embedded twice: under the source's name with exact arithmetic, for the results in which
  rounding plays no part (branches, counters, decoding, what is written where), and with
  the suffix `_f32` with every floating-point operation rounded to binary32 (binary64 for
  `double`), for the results about the values computed. Infinities and NaN are outside
  the model.
* `uint8_t` is `Fin 256`; `int`, `int16_t` and `int64_t` values are integers, with the
  wrap to the type's width written out where a result is stored (`int16_cast`, `int_wrap`).
* The I2C bus is an explicit value: the outcome of the n-th transaction is given by a
  stream of replies, and every transaction issued is appended to a log.
* The `static` stillness counters of `process_accel_data` are an explicit `still_counts`
  value passed in and returned.
* Delays (`vTaskDelay`) and bus timeouts are real time and are left out.
* Character arrays are lists of characters and the input of the command listener is the
  list of characters available to `fgets`; `atoi`, `atof` and `sscanf` are parameters.
-/

namespace RTimu

/-! ## ESP-IDF types and constants used by the sources -/

/-- The error type of ESP-IDF, a C `int`. -/
abbrev esp_err_t := Int

/-- The success value of `esp_err.h`. -/
def ESP_OK : esp_err_t := 0

/-- The generic failure value of `esp_err.h`; the bus transfer functions return it
when the slave does not acknowledge the transfer. -/
def ESP_FAIL : esp_err_t := -1

/-- The timeout value of `esp_err.h`. -/
def ESP_ERR_TIMEOUT : esp_err_t := 0x107

/-- The port number `I2C_NUM_0`. -/
def I2C_NUM_0 : Nat := 0

/-- An unsigned byte. -/
abbrev uint8_t := Fin 256

/-- Conversion of a non-negative `int` value to `uint8_t` (keeps the low 8 bits). -/
def to_uint8 (n : Nat) : uint8_t := ⟨n % 256, Nat.mod_lt n (by decide)⟩

/-- Conversion of an `int` value to `int16_t` (two's complement, low 16 bits). -/
def int16_cast (n : Int) : Int :=
  let m := n % 65536
  if m < 32768 then m else m - 65536

/-- The value of a 32-bit `int` computation, wrapped to the width of the type. -/
def int_wrap (n : Int) : Int := (n + 2147483648) % 4294967296 - 2147483648

/-! ## The I2C bus -/

/-- A transaction issued on the bus: `i2c_master_write_to_device` or
`i2c_master_write_read_device`, with its port, device address and data. -/
inductive i2c_transaction where
  | write (port : Nat) (addr : uint8_t) (data : List uint8_t)
  | write_read (port : Nat) (addr : uint8_t) (wdata : List uint8_t) (rlen : Nat)
  deriving DecidableEq, Repr

/-- What the bus answers to one transaction: the result code and, for a read, the bytes
put in the read buffer. -/
structure i2c_reply where
  res : esp_err_t
  rx : Nat → uint8_t

/-- The bus: the reply to the n-th transaction, and the transactions issued so far
(oldest first). -/
structure i2c_bus where
  replies : Nat → i2c_reply
  log : List i2c_transaction

/-- The reply the next transaction will get. -/
def i2c_bus.next (bus : i2c_bus) : i2c_reply := bus.replies bus.log.length

/-- ESP-IDF `i2c_master_write_to_device`. -/
def i2c_master_write_to_device (bus : i2c_bus) (port : Nat) (addr : uint8_t)
    (data : List uint8_t) : esp_err_t × i2c_bus :=
  (bus.next.res, { bus with log := bus.log ++ [i2c_transaction.write port addr data] })

/-- ESP-IDF `i2c_master_write_read_device`: result code, read buffer, bus. -/
def i2c_master_write_read_device (bus : i2c_bus) (port : Nat) (addr : uint8_t)
    (wdata : List uint8_t) (rlen : Nat) : esp_err_t × (Nat → uint8_t) × i2c_bus :=
  (bus.next.res, bus.next.rx,
    { bus with log := bus.log ++ [i2c_transaction.write_read port addr wdata rlen] })

/-! ## `mpu6050.h` -/

def MPU6050_ADDR : uint8_t := 0x68
def MPU6050_DEVICE_ID : uint8_t := 0x68
def MPU6050_CLKSEL_PLL : uint8_t := 0x01
def MPU6050_WAKE_UP : uint8_t := 0x00
def MPU6050_WHO_AM_I : uint8_t := 0x75
def MPU6050_PWR_MGMT_1 : uint8_t := 0x6B
def MPU6050_SMPLRT_DIV : uint8_t := 0x19
def MPU6050_CONFIG : uint8_t := 0x1A
def MPU6050_GYRO_CONFIG : uint8_t := 0x1B
def MPU6050_ACCEL_CONFIG : uint8_t := 0x1C
def MPU6050_ACCEL_XOUT_H : uint8_t := 0x3B

/-- Raw accelerometer units to m/s² for the ±2g range. -/
def ACCEL_SCALE : ℚ := 9.80665 / 16384.0

structure mpu6050_config_t where
  accel_range : uint8_t
  gyro_range : uint8_t
  dlpf_cfg : uint8_t
  smplrt_div : uint8_t
  deriving DecidableEq, Repr

structure mpu6050_data_t where
  ax : ℚ
  ay : ℚ
  az : ℚ
  gx : ℚ
  gy : ℚ
  gz : ℚ
  temp : ℚ
  deriving DecidableEq, Repr

structure mpu6050_cal_data_t where
  samples : Int
  ax_bias : ℚ
  ay_bias : ℚ
  az_bias : ℚ
  gx_bias : ℚ
  gy_bias : ℚ
  gz_bias : ℚ
  deriving DecidableEq, Repr

/-! ## `mpu6050.c` -/

/-- Function `mpu6050_config`: four register writes, stopping at the first that fails. -/
def mpu6050_config (bus : i2c_bus) (port : Nat) (cfg : mpu6050_config_t) :
    esp_err_t × i2c_bus :=
  -- SMPLRT_DIV
  let (res, bus) := i2c_master_write_to_device bus port MPU6050_ADDR
    [MPU6050_SMPLRT_DIV, cfg.smplrt_div]
  if res ≠ ESP_OK then (res, bus) else
  -- CONFIG
  let (res, bus) := i2c_master_write_to_device bus port MPU6050_ADDR
    [MPU6050_CONFIG, cfg.dlpf_cfg]
  if res ≠ ESP_OK then (res, bus) else
  -- GYRO_CONFIG
  let (res, bus) := i2c_master_write_to_device bus port MPU6050_ADDR
    [MPU6050_GYRO_CONFIG, to_uint8 (cfg.gyro_range.val <<< 3)]
  if res ≠ ESP_OK then (res, bus) else
  -- ACCEL_CONFIG
  let (res, bus) := i2c_master_write_to_device bus port MPU6050_ADDR
    [MPU6050_ACCEL_CONFIG, to_uint8 (cfg.accel_range.val <<< 3)]
  if res ≠ ESP_OK then (res, bus) else
  (ESP_OK, bus)

/-- Function `mpu6050_init`: identity check, then wake-up and clock selection. -/
def mpu6050_init (bus : i2c_bus) (port : Nat) : esp_err_t × i2c_bus :=
  -- WHO_AM_I check
  let (res, rx, bus) := i2c_master_write_read_device bus port MPU6050_ADDR
    [MPU6050_WHO_AM_I] 1
  if res ≠ ESP_OK then (res, bus) else
  let who_am_i := rx 0
  if who_am_i ≠ MPU6050_DEVICE_ID then (ESP_FAIL, bus) else
  -- Wake up (clear sleep bit)
  let (res, bus) := i2c_master_write_to_device bus port MPU6050_ADDR
    [MPU6050_PWR_MGMT_1, MPU6050_WAKE_UP]
  if res ≠ ESP_OK then (res, bus) else
  -- Set clock source to PLL with X axis gyroscope reference
  let (res, bus) := i2c_master_write_to_device bus port MPU6050_ADDR
    [MPU6050_PWR_MGMT_1, MPU6050_CLKSEL_PLL]
  if res ≠ ESP_OK then (res, bus) else
  (ESP_OK, bus)

/-- The expression `(int16_t)(hi << 8 | lo)` on two bytes of the read buffer. -/
def raw_int16 (hi lo : uint8_t) : Int :=
  int16_cast (((hi.val <<< 8) ||| lo.val : Nat) : Int)

/-- Function `mpu6050_read_accel`: one 6-byte read at `ACCEL_XOUT_H`; on success the three
acceleration fields of `data` are overwritten. -/
def mpu6050_read_accel (bus : i2c_bus) (port : Nat) (data : mpu6050_data_t) :
    esp_err_t × mpu6050_data_t × i2c_bus :=
  let (res, raw, bus) := i2c_master_write_read_device bus port MPU6050_ADDR
    [MPU6050_ACCEL_XOUT_H] 6
  if res ≠ ESP_OK then (res, data, bus) else
  let ax := raw_int16 (raw 0) (raw 1)
  let ay := raw_int16 (raw 2) (raw 3)
  let az := raw_int16 (raw 4) (raw 5)
  let data := { data with ax := (ax : ℚ) * ACCEL_SCALE }
  let data := { data with ay := (ay : ℚ) * ACCEL_SCALE }
  let data := { data with az := (az : ℚ) * ACCEL_SCALE }
  (ESP_OK, data, bus)

structure task_config_t where
  update_rate_ms : Nat
  accel_noise_floor : ℚ
  start : Bool
  cfg : mpu6050_config_t
  deriving DecidableEq, Repr

structure motion_state_t where
  ax : ℚ
  ay : ℚ
  az : ℚ
  vx : ℚ
  vy : ℚ
  vz : ℚ
  dx : ℚ
  dy : ℚ
  dz : ℚ
  deriving DecidableEq, Repr

/-! ## `app_tasks.c` -/

/-- The three `static int` stillness counters of `process_accel_data`; the program
starts with all of them 0. -/
structure still_counts where
  ax_still_count : Int
  ay_still_count : Int
  az_still_count : Int
  deriving DecidableEq, Repr

/-- What `process_accel_data` reads and writes besides its arguments: the structure
behind the `state` pointer and the static counters. -/
structure integrator where
  state : motion_state_t
  counts : still_counts
  deriving DecidableEq, Repr

/-- Function `process_accel_data`: bias compensation, noise gate, stillness detection with hold
time and integration. -/
def process_accel_data (data : mpu6050_data_t) (bias : mpu6050_cal_data_t)
    (noise_threshold dt : ℚ) (m : integrator) : integrator :=
  -- Bias Compensation
  let ax := data.ax - bias.ax_bias
  let ay := data.ay - bias.ay_bias
  let az := data.az - bias.az_bias
  -- Noise Filtering
  let ax := if |ax| < noise_threshold then 0 else ax
  let ay := if |ay| < noise_threshold then 0 else ay
  let az := if |az| < noise_threshold then 0 else az
  -- Stillness Detection with Hold Time
  let stationary_threshold : ℚ := 0.05
  let hold_cycles : Int := 10
  -- X-axis
  let m :=
    if |ax| < stationary_threshold then
      let m := { m with counts.ax_still_count := int_wrap (m.counts.ax_still_count + 1) }
      if m.counts.ax_still_count ≥ hold_cycles then { m with state.vx := 0 } else m
    else
      let m := { m with counts.ax_still_count := 0 }
      let m := { m with state.vx := m.state.vx + ax * dt }
      { m with state.dx := m.state.dx + m.state.vx * dt }
  -- Y-axis
  let m :=
    if |ay| < stationary_threshold then
      let m := { m with counts.ay_still_count := int_wrap (m.counts.ay_still_count + 1) }
      if m.counts.ay_still_count ≥ hold_cycles then { m with state.vy := 0 } else m
    else
      let m := { m with counts.ay_still_count := 0 }
      let m := { m with state.vy := m.state.vy + ay * dt }
      { m with state.dy := m.state.dy + m.state.vy * dt }
  -- Z-axis
  let m :=
    if |az| < stationary_threshold then
      let m := { m with counts.az_still_count := int_wrap (m.counts.az_still_count + 1) }
      if m.counts.az_still_count ≥ hold_cycles then { m with state.vz := 0 } else m
    else
      let m := { m with counts.az_still_count := 0 }
      let m := { m with state.vz := m.state.vz + az * dt }
      { m with state.dz := m.state.dz + m.state.vz * dt }
  -- Store acceleration in state
  let m := { m with state.ax := ax }
  let m := { m with state.ay := ay }
  { m with state.az := az }

/-- A line logged by `accel_readout_task` at the end of a cycle: the three report lines
of a successful read, or the warning of a failed one. -/
inductive readout_log where
  | report (state : motion_state_t)
  | read_failed (res : esp_err_t)
  deriving DecidableEq, Repr

/-- The variables `accel_readout_task` carries from one cycle to the next, with the
integrator's counters, the bus and the lines logged so far. -/
structure accel_task where
  accel_data : mpu6050_data_t
  accel_bias_data : mpu6050_cal_data_t
  motion : integrator
  last_time : Int
  bus : i2c_bus
  logged : List readout_log

/-- One pass through the body of the `while (1)` loop of `accel_readout_task`; `now` is
what `esp_timer_get_time` returns in this cycle (microseconds). -/
def accel_readout_cycle (config : task_config_t) (now : Int) (t : accel_task) :
    accel_task :=
  if config.start then
    -- Read acceleration
    let r := mpu6050_read_accel t.bus I2C_NUM_0 t.accel_data
    let res := r.1
    let t := { t with accel_data := r.2.1, bus := r.2.2 }
    -- measure integration time difference
    let dt : ℚ := ((now - t.last_time : Int) : ℚ) / 1000000
    let t := { t with last_time := now }
    let m := process_accel_data t.accel_data t.accel_bias_data config.accel_noise_floor dt
      t.motion
    let t := { t with motion := m }
    if res = ESP_OK then
      { t with logged := t.logged ++ [readout_log.report t.motion.state] }
    else
      { t with logged := t.logged ++ [readout_log.read_failed res] }
  else t

/-! ## Vocabulary of the statements -/

/-- The three axes. -/
inductive Axis where
  | x
  | y
  | z
  deriving DecidableEq, Repr

/-- The raw reading of an axis. -/
def Axis.raw : Axis → mpu6050_data_t → ℚ
  | .x, d => d.ax
  | .y, d => d.ay
  | .z, d => d.az

/-- The calibration bias of an axis. -/
def Axis.bias : Axis → mpu6050_cal_data_t → ℚ
  | .x, b => b.ax_bias
  | .y, b => b.ay_bias
  | .z, b => b.az_bias

/-- The acceleration stored in the state for an axis. -/
def Axis.acc : Axis → motion_state_t → ℚ
  | .x, s => s.ax
  | .y, s => s.ay
  | .z, s => s.az

/-- The velocity of an axis. -/
def Axis.vel : Axis → motion_state_t → ℚ
  | .x, s => s.vx
  | .y, s => s.vy
  | .z, s => s.vz

/-- The displacement of an axis. -/
def Axis.disp : Axis → motion_state_t → ℚ
  | .x, s => s.dx
  | .y, s => s.dy
  | .z, s => s.dz

/-- The stillness counter of an axis. -/
def Axis.count : Axis → still_counts → Int
  | .x, c => c.ax_still_count
  | .y, c => c.ay_still_count
  | .z, c => c.az_still_count

/-- The arguments of one call of `process_accel_data` other than the state. -/
structure accel_call where
  data : mpu6050_data_t
  bias : mpu6050_cal_data_t
  noise_threshold : ℚ
  dt : ℚ
  deriving DecidableEq, Repr

/-- The acceleration of an axis after bias compensation and the noise gate (the value
`process_accel_data` stores in the state, see `acc_process_accel_data`). -/
def accel_call.gated (a : Axis) (c : accel_call) : ℚ :=
  if |a.raw c.data - a.bias c.bias| < c.noise_threshold then 0
  else a.raw c.data - a.bias c.bias

/-- Consecutive calls of `process_accel_data`, first call first. -/
def process_accel_run (calls : List accel_call) (init : integrator) : integrator :=
  calls.foldl (fun m c => process_accel_data c.data c.bias c.noise_threshold c.dt m) init

/-! ## Auxiliary definitions for the proofs -/

/-- The block `// X-axis` of `process_accel_data`, on the gated acceleration `ax`. -/
def block_x (ax dt : ℚ) (m : integrator) : integrator :=
  if |ax| < (0.05 : ℚ) then
    let m := { m with counts.ax_still_count := int_wrap (m.counts.ax_still_count + 1) }
    if m.counts.ax_still_count ≥ (10 : Int) then { m with state.vx := 0 } else m
  else
    let m := { m with counts.ax_still_count := 0 }
    let m := { m with state.vx := m.state.vx + ax * dt }
    { m with state.dx := m.state.dx + m.state.vx * dt }

/-- The block `// Y-axis` of `process_accel_data`, on the gated acceleration `ay`. -/
def block_y (ay dt : ℚ) (m : integrator) : integrator :=
  if |ay| < (0.05 : ℚ) then
    let m := { m with counts.ay_still_count := int_wrap (m.counts.ay_still_count + 1) }
    if m.counts.ay_still_count ≥ (10 : Int) then { m with state.vy := 0 } else m
  else
    let m := { m with counts.ay_still_count := 0 }
    let m := { m with state.vy := m.state.vy + ay * dt }
    { m with state.dy := m.state.dy + m.state.vy * dt }

/-- The block `// Z-axis` of `process_accel_data`, on the gated acceleration `az`. -/
def block_z (az dt : ℚ) (m : integrator) : integrator :=
  if |az| < (0.05 : ℚ) then
    let m := { m with counts.az_still_count := int_wrap (m.counts.az_still_count + 1) }
    if m.counts.az_still_count ≥ (10 : Int) then { m with state.vz := 0 } else m
  else
    let m := { m with counts.az_still_count := 0 }
    let m := { m with state.vz := m.state.vz + az * dt }
    { m with state.dz := m.state.dz + m.state.vz * dt }

/-- The block `// Store acceleration in state` of `process_accel_data`. -/
def block_store (ax ay az : ℚ) (m : integrator) : integrator :=
  let m := { m with state.ax := ax }
  let m := { m with state.ay := ay }
  { m with state.az := az }

/-- Counter, velocity and displacement of one axis. -/
def Axis.track (a : Axis) (m : integrator) : Int × ℚ × ℚ :=
  (a.count m.counts, a.vel m.state, a.disp m.state)

/-- What one call of `process_accel_data` does to the counter, velocity and displacement
of an axis whose gated acceleration is `g` (see `track_process_accel_data`). -/
def axis_update (g dt : ℚ) (t : Int × ℚ × ℚ) : Int × ℚ × ℚ :=
  if |g| < (0.05 : ℚ) then
    (int_wrap (t.1 + 1), (if int_wrap (t.1 + 1) ≥ (10 : Int) then 0 else t.2.1), t.2.2)
  else
    (0, t.2.1 + g * dt, t.2.2 + (t.2.1 + g * dt) * dt)

/-! ## Concrete inputs -/

/-- The configuration `app_main` starts with, with acquisition enabled. -/
def default_config : task_config_t :=
  { update_rate_ms := 50, accel_noise_floor := 0.5, start := true,
    cfg := { accel_range := 0, gyro_range := 0, dlpf_cfg := 3, smplrt_div := 0 } }

/-- A successful reply whose six bytes are `40 00 00 00 00 00` (x = 16384, one g). -/
def reply_one_g : i2c_reply :=
  { res := ESP_OK, rx := fun i => if i = 0 then 0x40 else 0 }

/-- A reply whose transaction is not acknowledged. -/
def reply_nack : i2c_reply := { res := ESP_FAIL, rx := fun _ => 0 }

/-- A bus whose first transaction succeeds with `reply_one_g` and whose later ones fail. -/
def bus_failing_after_first : i2c_bus :=
  { replies := fun n => if n = 0 then reply_one_g else reply_nack, log := [] }

def zero_data : mpu6050_data_t :=
  { ax := 0, ay := 0, az := 0, gx := 0, gy := 0, gz := 0, temp := 0 }

def zero_bias : mpu6050_cal_data_t :=
  { samples := 100, ax_bias := 0, ay_bias := 0, az_bias := 0,
    gx_bias := 0, gy_bias := 0, gz_bias := 0 }

def zero_motion : integrator :=
  { state := { ax := 0, ay := 0, az := 0, vx := 0, vy := 0, vz := 0, dx := 0, dy := 0, dz := 0 },
    counts := { ax_still_count := 0, ay_still_count := 0, az_still_count := 0 } }

/-- The readout task at rest with zero bias, on `bus_failing_after_first`. -/
def task_failing_after_first : accel_task :=
  { accel_data := zero_data, accel_bias_data := zero_bias, motion := zero_motion,
    last_time := 0, bus := bus_failing_after_first, logged := [] }

/-- The readout task after one enabled cycle at 50 ms from `task_failing_after_first`
(the read of that cycle succeeds). -/
def task_after_first_cycle : accel_task :=
  accel_readout_cycle default_config 50000 task_failing_after_first

/-- A body in motion on every axis, with all stillness counters 0. -/
def coasting_motion : integrator :=
  { state := { ax := 0, ay := 0, az := 0, vx := 1, vy := -2, vz := 3, dx := 4, dy := 5, dz := -6 },
    counts := { ax_still_count := 0, ay_still_count := 0, az_still_count := 0 } }

/-- A call with a zero time step and a reading of 1 m/s² on every axis. -/
def zero_dt_call : accel_call :=
  { data := { zero_data with ax := 1, ay := 1, az := 1 }, bias := zero_bias,
    noise_threshold := 0.5, dt := 0 }

/-- A bus on which every transaction succeeds and reads zeros. -/
def bus_all_ok : i2c_bus :=
  { replies := fun _ => { res := ESP_OK, rx := fun _ => 0 }, log := [] }

/-- A configuration with accel range 2 (±8g). -/
def config_range_8g : mpu6050_config_t :=
  { accel_range := 2, gyro_range := 0, dlpf_cfg := 3, smplrt_div := 0 }

/-- A bus on which every transaction is not acknowledged (no device present). -/
def bus_all_nack : i2c_bus := { replies := fun _ => reply_nack, log := [] }

/-- A bus on which every transaction times out. -/
def bus_timeout : i2c_bus :=
  { replies := fun _ => { res := ESP_ERR_TIMEOUT, rx := fun _ => 0 }, log := [] }

/-- The acceleration `mpu6050_read_accel` decodes for an axis from a successful reply. -/
def reply_accel (a : Axis) (r : i2c_reply) : ℚ :=
  match a with
  | .x => (raw_int16 (r.rx 0) (r.rx 1) : ℚ) * ACCEL_SCALE
  | .y => (raw_int16 (r.rx 2) (r.rx 3) : ℚ) * ACCEL_SCALE
  | .z => (raw_int16 (r.rx 4) (r.rx 5) : ℚ) * ACCEL_SCALE

/-- The bus after one more `mpu6050_read_accel` transaction. -/
def bus_after_read (bus : i2c_bus) (port : Nat) : i2c_bus :=
  { bus with log := bus.log ++
      [i2c_transaction.write_read port MPU6050_ADDR [MPU6050_ACCEL_XOUT_H] 6] }

/-- The caller's calibration structure as `mpu6050_calibrate_accel` sets it up before
its loop. -/
def cal_start (cal_data : mpu6050_cal_data_t) : mpu6050_cal_data_t :=
  { cal_data with samples := 100, ax_bias := 0, ay_bias := 0, az_bias := 0 }

/-- A bus whose transactions all succeed and read `40 00 C0 00 00 02`
(x = 16384, y = -16384, z = 2). -/
def bus_constant_sample : i2c_bus :=
  { replies := fun _ =>
      { res := ESP_OK,
        rx := fun i => if i = 0 then 0x40 else if i = 2 then 0xC0 else if i = 5 then 0x02
          else 0x00 },
    log := [] }

/-- A calibration structure with old content in every field. -/
def stale_cal : mpu6050_cal_data_t :=
  { samples := 7, ax_bias := 5, ay_bias := 5, az_bias := 5,
    gx_bias := 5, gy_bias := 5, gz_bias := 5 }

/-- The size of the command buffer. -/
def CMD_BUF_SIZE : Nat := 128

/-- The terminator of a C string. -/
def NUL : Char := Char.ofNat 0

/-- The line feed character. -/
def LF : Char := Char.ofNat 10

/-- The carriage return character. -/
def CR : Char := Char.ofNat 13

/-- The C string that starts at offset `off` of a character array. -/
def c_string (buf : List Char) (off : Nat) : List Char :=
  (buf.drop off).takeWhile (fun c => c != NUL)

/-- The libc function `strncmp` on two C strings: 0 when they agree on their first `n`
characters (the terminator included if it comes first), otherwise the difference of the
first two characters that differ. -/
def strncmp : List Char → List Char → Nat → Int
  | _, _, 0 => 0
  | [], [], _ + 1 => 0
  | [], c2 :: _, _ + 1 => - (c2.toNat : Int)
  | c1 :: _, [], _ + 1 => (c1.toNat : Int)
  | c1 :: r1, c2 :: r2, n + 1 =>
    if c1 = c2 then strncmp r1 r2 n else (c1.toNat : Int) - (c2.toNat : Int)

/-- The libc function `strcspn`: the length of the longest start of `s` without a
character of `reject`. -/
def strcspn (s reject : List Char) : Nat :=
  (s.takeWhile (fun c => !(reject.contains c))).length

/-- The characters one `fgets` call takes from the input: at most `n`, up to and including
the first line feed. -/
def fgets_take : Nat → List Char → List Char
  | 0, _ => []
  | _ + 1, [] => []
  | n + 1, c :: cs => if c = LF then [c] else c :: fgets_take n cs

/-- The libc function `fgets(buf, size, stdin)`, `stdin` being the characters available:
`none` for a NULL result (nothing to read), otherwise the array after the call (the
characters read, a NUL, and the old content behind it) and the rest of the input. -/
def fgets (buf : List Char) (size : Nat) (stdin : List Char) :
    Option (List Char × List Char) :=
  let line := fgets_take (size - 1) stdin
  if line = [] then none
  else some (line ++ [NUL] ++ buf.drop (line.length + 1), stdin.drop line.length)

/-- Conversion of an `int` value to `uint32_t`. -/
def to_uint32 (n : Int) : Nat := (n % 4294967296).toNat

/-- Conversion of an `int` value to `uint8_t`. -/
def int_to_uint8 (n : Int) : uint8_t := to_uint8 (n % 256).toNat

/-- The conversions of the C library used by the listener: `atoi`, `atof`, and
`sscanf` with the format `%d,%d,%d,%d` (`some` of the four values when it returns 4). -/
structure libc_conv where
  atoi : List Char → Int
  atof : List Char → ℚ
  sscanf_4d : List Char → Option (Int × Int × Int × Int)

/-- A line logged by `command_listener_task`. -/
inductive listener_log where
  | received (cmd : List Char)
  | set_update_rate (rate : Int)
  | set_noise_floor (noise : ℚ)
  | reconfigured (a g d s : Int)
  | invalid_config
  | starting
  | stopping
  | unknown_command (cmd : List Char)
  deriving DecidableEq, Repr

/-- The variables of `command_listener_task` with what it acts on: the buffer `buf`, the
shared configuration, the bus, the input, the lines logged, and whether `esp_restart`
was called. -/
structure listener where
  buf : List Char
  config : task_config_t
  bus : i2c_bus
  stdin : List Char
  logged : List listener_log
  restarted : Bool

/-- One pass through the body of the `while (1)` loop of `command_listener_task`. -/
def command_listener_cycle (L : libc_conv) (t : listener) : listener :=
  match fgets t.buf CMD_BUF_SIZE t.stdin with
  | none => t
  | some r =>
    let t := { t with buf := r.1, stdin := r.2 }
    let t := { t with buf := t.buf.set (strcspn (c_string t.buf 0) [CR, LF]) NUL }
    let t := { t with logged := t.logged ++ [listener_log.received (c_string t.buf 0)] }
    if strncmp (c_string t.buf 0) "reset".toList 5 = 0 then
      { t with restarted := true }
    else if strncmp (c_string t.buf 0) "set_rate:".toList 9 = 0 then
      let rate := L.atoi (c_string t.buf 9)
      let t := { t with config.update_rate_ms := to_uint32 rate }
      { t with logged := t.logged ++ [listener_log.set_update_rate rate] }
    else if strncmp (c_string t.buf 0) "set_accel_noise_floor:".toList 23 = 0 then
      let noise := L.atof (c_string t.buf 23)
      let t := { t with config.accel_noise_floor := noise }
      { t with logged := t.logged ++ [listener_log.set_noise_floor noise] }
    else if strncmp (c_string t.buf 0) "set_mpu6050_config:".toList 19 = 0 then
      match L.sscanf_4d (c_string t.buf 19) with
      | some (a, g, d, s) =>
        let t := { t with config.cfg.accel_range := int_to_uint8 a }
        let t := { t with config.cfg.gyro_range := int_to_uint8 g }
        let t := { t with config.cfg.dlpf_cfg := int_to_uint8 d }
        let t := { t with config.cfg.smplrt_div := int_to_uint8 s }
        let t := { t with bus := (mpu6050_config t.bus I2C_NUM_0 t.config.cfg).2 }
        { t with logged := t.logged ++ [listener_log.reconfigured a g d s] }
      | none => { t with logged := t.logged ++ [listener_log.invalid_config] }
    else if strncmp (c_string t.buf 0) "start".toList 5 = 0 then
      let t := { t with config.start := true }
      { t with logged := t.logged ++ [listener_log.starting] }
    else if strncmp (c_string t.buf 0) "stop".toList 4 = 0 then
      let t := { t with config.start := false }
      { t with logged := t.logged ++ [listener_log.stopping] }
    else
      { t with logged := t.logged ++ [listener_log.unknown_command (c_string t.buf 0)] }

/-- The command line `set_accel_noise_floor:0.25`. -/
def noise_floor_command : List Char := "set_accel_noise_floor:0.25".toList

/-- The listener with an empty buffer and the configuration of `app_main`, with the line
`set_accel_noise_floor:0.25` on its input. -/
def listener_noise_floor : listener :=
  { buf := List.replicate CMD_BUF_SIZE NUL, config := default_config, bus := bus_all_ok,
    stdin := noise_floor_command ++ [LF], logged := [], restarted := false }

/-- The listener with an empty buffer and the configuration of `app_main`, with the bare
line `set_accel_noise_floor:` (no number) on its input. -/
def listener_bare_literal : listener :=
  { buf := List.replicate CMD_BUF_SIZE NUL, config := default_config, bus := bus_all_ok,
    stdin := "set_accel_noise_floor:".toList ++ [LF], logged := [], restarted := false }

/-- The 22 characters of the literal `set_accel_noise_floor:`. -/
def noise_floor_literal : List Char := "set_accel_noise_floor:".toList

/-! ## Binary floating point

The target computes `float` in binary32 and `double` in binary64, every operation rounded
on its own to the nearest value, ties to even. `round32` and `round64` are these roundings
on the rationals. Infinities and NaN are not modelled: the exponent has no upper bound. -/

/-- The number of binary digits of `n`, by halving at most `fuel` times. -/
def bit_length_fuel : Nat → Nat → Nat
  | 0, _ => 0
  | fuel + 1, n => if n = 0 then 0 else bit_length_fuel fuel (n / 2) + 1

/-- The number of binary digits of `n`. -/
def bit_length (n : Nat) : Nat := bit_length_fuel n n

/-- The exponent of the largest power of two that is at most `x`, for positive `x`. -/
def ilog2 (x : ℚ) : Int :=
  let e : Int := (bit_length x.num.natAbs : Int) - (bit_length x.den : Int)
  if x < 2 ^ e then e - 1 else e

/-- The nearest integer, a tie going to the even one. -/
def round_half_even (x : ℚ) : Int :=
  let f := ⌊x⌋
  if x - f < 1 / 2 then f
  else if 1 / 2 < x - f then f + 1
  else if f % 2 = 0 then f else f + 1

/-- The nearest binary floating-point value with `prec` significant bits whose last bit
weighs at least `2 ^ emin`, a tie going to the even significand. -/
def round_binary (prec : Nat) (emin : Int) (x : ℚ) : ℚ :=
  if x = 0 then 0 else
  let e := max (ilog2 |x| - ((prec : Int) - 1)) emin
  (round_half_even (x / 2 ^ e) : ℚ) * 2 ^ e

/-- Rounding to binary32 (`float`). -/
def round32 (x : ℚ) : ℚ := round_binary 24 (-149) x

/-- Rounding to binary64 (`double`). -/
def round64 (x : ℚ) : ℚ := round_binary 53 (-1074) x

/-! ## The sources with binary32 arithmetic

The functions that compute with `float` are embedded a second time, with the suffix `_f32`:
the same statements in the same order, the result of every floating-point operation
rounded. The definitions under the source's names compute with exact rationals and carry
the results in which rounding plays no part. -/

/-- The constant `ACCEL_SCALE`, a quotient of two `double` literals. -/
def ACCEL_SCALE_double : ℚ := round64 (round64 9.80665 / round64 16384.0)

/-- Function `mpu6050_read_accel` with rounding: the product is a `double`, the store
converts it to `float`. -/
def mpu6050_read_accel_f32 (bus : i2c_bus) (port : Nat) (data : mpu6050_data_t) :
    esp_err_t × mpu6050_data_t × i2c_bus :=
  let r := i2c_master_write_read_device bus port MPU6050_ADDR [MPU6050_ACCEL_XOUT_H] 6
  let res := r.1
  let raw := r.2.1
  let bus := r.2.2
  if res ≠ ESP_OK then (res, data, bus) else
  let ax := raw_int16 (raw 0) (raw 1)
  let ay := raw_int16 (raw 2) (raw 3)
  let az := raw_int16 (raw 4) (raw 5)
  let data := { data with ax := round32 (round64 (round32 (ax : ℚ) * ACCEL_SCALE_double)) }
  let data := { data with ay := round32 (round64 (round32 (ay : ℚ) * ACCEL_SCALE_double)) }
  let data := { data with az := round32 (round64 (round32 (az : ℚ) * ACCEL_SCALE_double)) }
  (ESP_OK, data, bus)

/-- The `for` loop of `mpu6050_calibrate_accel` with `n` iterations left, the sums in
binary32. -/
def mpu6050_calibrate_accel_loop_f32 (port : Nat) :
    Nat → i2c_bus → mpu6050_data_t → mpu6050_cal_data_t →
      Option esp_err_t × i2c_bus × mpu6050_data_t × mpu6050_cal_data_t
  | 0, bus, accel_data, cal_data => (none, bus, accel_data, cal_data)
  | n + 1, bus, accel_data, cal_data =>
    let r := mpu6050_read_accel_f32 bus port accel_data
    let res := r.1
    let accel_data := r.2.1
    let bus := r.2.2
    if res ≠ ESP_OK then (some res, bus, accel_data, cal_data) else
    let cal_data := { cal_data with ax_bias := round32 (cal_data.ax_bias + accel_data.ax) }
    let cal_data := { cal_data with ay_bias := round32 (cal_data.ay_bias + accel_data.ay) }
    let cal_data := { cal_data with az_bias := round32 (cal_data.az_bias + accel_data.az) }
    mpu6050_calibrate_accel_loop_f32 port n bus accel_data cal_data

/-- Function `mpu6050_calibrate_accel` with rounding: binary32 sums, then a binary32
division by the sample count converted to `float`. -/
def mpu6050_calibrate_accel_f32 (bus : i2c_bus) (port : Nat) (accel_data : mpu6050_data_t)
    (cal_data : mpu6050_cal_data_t) : esp_err_t × mpu6050_cal_data_t × i2c_bus :=
  let cal_data := { cal_data with samples := 100 }
  let cal_data := { cal_data with ax_bias := 0 }
  let cal_data := { cal_data with ay_bias := 0 }
  let cal_data := { cal_data with az_bias := 0 }
  let r := mpu6050_calibrate_accel_loop_f32 port cal_data.samples.toNat bus accel_data cal_data
  let bus := r.2.1
  let cal_data := r.2.2.2
  match r.1 with
  | some res => (res, cal_data, bus)
  | none =>
    let cal_data := { cal_data with
      ax_bias := round32 (cal_data.ax_bias / round32 (cal_data.samples : ℚ)) }
    let cal_data := { cal_data with
      ay_bias := round32 (cal_data.ay_bias / round32 (cal_data.samples : ℚ)) }
    let cal_data := { cal_data with
      az_bias := round32 (cal_data.az_bias / round32 (cal_data.samples : ℚ)) }
    (ESP_OK, cal_data, bus)

/-- Function `process_accel_data` with rounding: the difference, the products and the
sums are binary32 values; the threshold is the `double` literal 0.05 stored in a `float`. -/
def process_accel_data_f32 (data : mpu6050_data_t) (bias : mpu6050_cal_data_t)
    (noise_threshold dt : ℚ) (m : integrator) : integrator :=
  -- Bias Compensation
  let ax := round32 (data.ax - bias.ax_bias)
  let ay := round32 (data.ay - bias.ay_bias)
  let az := round32 (data.az - bias.az_bias)
  -- Noise Filtering
  let ax := if |ax| < noise_threshold then 0 else ax
  let ay := if |ay| < noise_threshold then 0 else ay
  let az := if |az| < noise_threshold then 0 else az
  -- Stillness Detection with Hold Time
  let stationary_threshold : ℚ := round32 (round64 0.05)
  let hold_cycles : Int := 10
  -- X-axis
  let m :=
    if |ax| < stationary_threshold then
      let m := { m with counts.ax_still_count := int_wrap (m.counts.ax_still_count + 1) }
      if m.counts.ax_still_count ≥ hold_cycles then { m with state.vx := 0 } else m
    else
      let m := { m with counts.ax_still_count := 0 }
      let m := { m with state.vx := round32 (m.state.vx + round32 (ax * dt)) }
      { m with state.dx := round32 (m.state.dx + round32 (m.state.vx * dt)) }
  -- Y-axis
  let m :=
    if |ay| < stationary_threshold then
      let m := { m with counts.ay_still_count := int_wrap (m.counts.ay_still_count + 1) }
      if m.counts.ay_still_count ≥ hold_cycles then { m with state.vy := 0 } else m
    else
      let m := { m with counts.ay_still_count := 0 }
      let m := { m with state.vy := round32 (m.state.vy + round32 (ay * dt)) }
      { m with state.dy := round32 (m.state.dy + round32 (m.state.vy * dt)) }
  -- Z-axis
  let m :=
    if |az| < stationary_threshold then
      let m := { m with counts.az_still_count := int_wrap (m.counts.az_still_count + 1) }
      if m.counts.az_still_count ≥ hold_cycles then { m with state.vz := 0 } else m
    else
      let m := { m with counts.az_still_count := 0 }
      let m := { m with state.vz := round32 (m.state.vz + round32 (az * dt)) }
      { m with state.dz := round32 (m.state.dz + round32 (m.state.vz * dt)) }
  -- Store acceleration in state
  let m := { m with state.ax := ax }
  let m := { m with state.ay := ay }
  { m with state.az := az }

/-- Consecutive calls of `process_accel_data_f32`, first call first. -/
def process_accel_run_f32 (calls : List accel_call) (init : integrator) : integrator :=
  calls.foldl (fun m c => process_accel_data_f32 c.data c.bias c.noise_threshold c.dt m) init

/-- The acceleration of an axis after the binary32 bias compensation and the noise gate
(the value `process_accel_data_f32` stores, see `acc_process_accel_data_f32`). -/
def accel_call.gated_f32 (a : Axis) (c : accel_call) : ℚ :=
  if |round32 (a.raw c.data - a.bias c.bias)| < c.noise_threshold then 0
  else round32 (a.raw c.data - a.bias c.bias)

/-- The block `// X-axis` of `process_accel_data_f32`, on the gated acceleration `ax`. -/
def block_x_f32 (ax dt : ℚ) (m : integrator) : integrator :=
  if |ax| < round32 (round64 0.05) then
    let m := { m with counts.ax_still_count := int_wrap (m.counts.ax_still_count + 1) }
    if m.counts.ax_still_count ≥ (10 : Int) then { m with state.vx := 0 } else m
  else
    let m := { m with counts.ax_still_count := 0 }
    let m := { m with state.vx := round32 (m.state.vx + round32 (ax * dt)) }
    { m with state.dx := round32 (m.state.dx + round32 (m.state.vx * dt)) }

/-- The block `// Y-axis` of `process_accel_data_f32`, on the gated acceleration `ay`. -/
def block_y_f32 (ay dt : ℚ) (m : integrator) : integrator :=
  if |ay| < round32 (round64 0.05) then
    let m := { m with counts.ay_still_count := int_wrap (m.counts.ay_still_count + 1) }
    if m.counts.ay_still_count ≥ (10 : Int) then { m with state.vy := 0 } else m
  else
    let m := { m with counts.ay_still_count := 0 }
    let m := { m with state.vy := round32 (m.state.vy + round32 (ay * dt)) }
    { m with state.dy := round32 (m.state.dy + round32 (m.state.vy * dt)) }

/-- The block `// Z-axis` of `process_accel_data_f32`, on the gated acceleration `az`. -/
def block_z_f32 (az dt : ℚ) (m : integrator) : integrator :=
  if |az| < round32 (round64 0.05) then
    let m := { m with counts.az_still_count := int_wrap (m.counts.az_still_count + 1) }
    if m.counts.az_still_count ≥ (10 : Int) then { m with state.vz := 0 } else m
  else
    let m := { m with counts.az_still_count := 0 }
    let m := { m with state.vz := round32 (m.state.vz + round32 (az * dt)) }
    { m with state.dz := round32 (m.state.dz + round32 (m.state.vz * dt)) }

/-- What one call of `process_accel_data_f32` does to the counter, velocity and
displacement of an axis whose gated acceleration is `g`
(see `track_process_accel_data_f32`). -/
def axis_update_f32 (g dt : ℚ) (t : Int × ℚ × ℚ) : Int × ℚ × ℚ :=
  if |g| < round32 (round64 0.05) then
    (int_wrap (t.1 + 1), (if int_wrap (t.1 + 1) ≥ (10 : Int) then 0 else t.2.1), t.2.2)
  else
    (0, round32 (t.2.1 + round32 (g * dt)),
      round32 (t.2.2 + round32 (round32 (t.2.1 + round32 (g * dt)) * dt)))

/-- A bus whose transactions succeed and read `03 44 00 00 00 00` (x = 836). -/
def bus_reading_836 : i2c_bus :=
  { replies := fun _ => { res := ESP_OK, rx := fun i => if i = 0 then 0x03 else
      if i = 1 then 0x44 else 0x00 },
    log := [] }

/-- A call with the x reading of 836 units (binary32 `3F0019B0`), the x bias binary32
`39CB8100`, the noise floor 0.5 of `app_main` and a step of 50 ms. -/
def rounding_gate_call : accel_call :=
  { data := { zero_data with ax := 8395120 / 2 ^ 24 },
    bias := { zero_bias with ax_bias := 52097 / 2 ^ 27 },
    noise_threshold := 0.5, dt := round32 0.05 }

/-- A body at rest whose stillness counters stand at 3. -/
def resting_motion : integrator :=
  { state := { ax := 0, ay := 0, az := 0, vx := 0, vy := 0, vz := 0, dx := 0, dy := 0, dz := 0 },
    counts := { ax_still_count := 3, ay_still_count := 3, az_still_count := 3 } }

/-- The call of the spec's gating scenario with its numbers as binary32 values:
raw (0.02, 9.81, 0.0), bias (0.0, 9.80, 0.0), noise floor 0.05, a step of 50 ms. -/
def gating_scenario_call_f32 : accel_call :=
  { data := { zero_data with ax := round32 0.02, ay := round32 9.81, az := 0 },
    bias := { zero_bias with ax_bias := 0, ay_bias := round32 9.80, az_bias := 0 },
    noise_threshold := round32 0.05, dt := round32 0.05 }

/-- Velocity and displacement of an axis that starts at 0, after `n` moving calls of
`process_accel_data_f32` with gated acceleration `acc` and step `dt`: the velocity is
incremented first, the displacement is incremented with the new velocity, and each
product and sum is rounded to binary32. -/
def euler_f32 (acc dt : ℚ) : Nat → ℚ × ℚ
  | 0 => (0, 0)
  | n + 1 =>
    (round32 ((euler_f32 acc dt n).1 + round32 (acc * dt)),
      round32 ((euler_f32 acc dt n).2
        + round32 (round32 ((euler_f32 acc dt n).1 + round32 (acc * dt)) * dt)))

/-- The call of the spec's integration scenario with its step as a binary32 value:
raw (1.0, 0, 0), zero bias, noise floor 0, dt the `float` nearest 0.1. -/
def tenth_second_call : accel_call :=
  { data := { zero_data with ax := 1 }, bias := zero_bias, noise_threshold := 0,
    dt := round32 0.1 }

/-- The integration scenario with a step of 0.125 s: raw (1.0, 0, 0), zero bias, noise
floor 0. -/
def eighth_second_call : accel_call :=
  { data := { zero_data with ax := 1 }, bias := zero_bias, noise_threshold := 0,
    dt := 0.125 }

/-- The acceleration `mpu6050_read_accel_f32` stores for an axis from a successful reply. -/
def reply_accel_f32 (a : Axis) (r : i2c_reply) : ℚ :=
  match a with
  | .x => round32 (round64 (round32 (raw_int16 (r.rx 0) (r.rx 1) : ℚ) * ACCEL_SCALE_double))
  | .y => round32 (round64 (round32 (raw_int16 (r.rx 2) (r.rx 3) : ℚ) * ACCEL_SCALE_double))
  | .z => round32 (round64 (round32 (raw_int16 (r.rx 4) (r.rx 5) : ℚ) * ACCEL_SCALE_double))

/-- The binary32 running sum of an axis over the next `i` replies of the bus, from
`start`: each addition is rounded. -/
def running_sum_f32 (a : Axis) (bus : i2c_bus) (start : ℚ) : Nat → ℚ
  | 0 => start
  | i + 1 => round32 (running_sum_f32 a bus start i
      + reply_accel_f32 a (bus.replies (bus.log.length + i)))

/-- The binary32 running sum of `n` equal samples `v`, from 0: each addition is rounded. -/
def sum_f32 (v : ℚ) : Nat → ℚ
  | 0 => 0
  | n + 1 => round32 (sum_f32 v n + v)

/-- A bus whose transactions all succeed and read `00 CB 00 00 40 00`
(x = 203, y = 0, z = 16384). -/
def bus_short_reading : i2c_bus :=
  { replies := fun _ =>
      { res := ESP_OK,
        rx := fun i => if i = 1 then 0xCB else if i = 4 then 0x40 else 0x00 },
    log := [] }

/-! ## The integrator, axis by axis -/

theorem process_accel_data_blocks (c : accel_call) (m : integrator) :
    process_accel_data c.data c.bias c.noise_threshold c.dt m =
      block_store (c.gated .x) (c.gated .y) (c.gated .z)
        (block_z (c.gated .z) c.dt (block_y (c.gated .y) c.dt
          (block_x (c.gated .x) c.dt m))) := rfl

theorem track_block_x (a : Axis) (g dt : ℚ) (m : integrator) :
    a.track (block_x g dt m) = if a = .x then axis_update g dt (a.track m) else a.track m := by
  cases a <;> simp only [block_x, Axis.track, axis_update, Axis.count, Axis.vel, Axis.disp] <;>
    split_ifs <;> simp_all

theorem track_block_y (a : Axis) (g dt : ℚ) (m : integrator) :
    a.track (block_y g dt m) = if a = .y then axis_update g dt (a.track m) else a.track m := by
  cases a <;> simp only [block_y, Axis.track, axis_update, Axis.count, Axis.vel, Axis.disp] <;>
    split_ifs <;> simp_all

theorem track_block_z (a : Axis) (g dt : ℚ) (m : integrator) :
    a.track (block_z g dt m) = if a = .z then axis_update g dt (a.track m) else a.track m := by
  cases a <;> simp only [block_z, Axis.track, axis_update, Axis.count, Axis.vel, Axis.disp] <;>
    split_ifs <;> simp_all

theorem track_block_store (a : Axis) (x y z : ℚ) (m : integrator) :
    a.track (block_store x y z m) = a.track m := by
  cases a <;> rfl

/-- One call of `process_accel_data` acts on each axis as `axis_update` on that axis's
gated acceleration. -/
theorem track_process_accel_data (a : Axis) (c : accel_call) (m : integrator) :
    a.track (process_accel_data c.data c.bias c.noise_threshold c.dt m)
      = axis_update (c.gated a) c.dt (a.track m) := by
  rw [process_accel_data_blocks, track_block_store, track_block_z, track_block_y, track_block_x]
  cases a <;> simp

/-- In an enabled cycle whose read fails, `accel_readout_cycle` still calls
`process_accel_data`, on the sample left in `accel_data` by an earlier cycle. -/
theorem accel_readout_cycle_of_failed_read (config : task_config_t) (now : Int)
    (t : accel_task) (hs : config.start = true) (hf : t.bus.next.res ≠ ESP_OK) :
    (accel_readout_cycle config now t).motion =
      process_accel_data t.accel_data t.accel_bias_data config.accel_noise_floor
        (((now - t.last_time : Int) : ℚ) / 1000000) t.motion := by
  simp only [accel_readout_cycle, hs, if_true, mpu6050_read_accel, i2c_master_write_read_device,
    ne_eq, hf, not_false_eq_true]
  split_ifs <;> rfl

theorem mpu6050_read_accel_ok (bus : i2c_bus) (port : Nat) (data : mpu6050_data_t)
    (h : bus.next.res = ESP_OK) :
    mpu6050_read_accel bus port data =
      (ESP_OK,
        { data with
          ax := (raw_int16 (bus.next.rx 0) (bus.next.rx 1) : ℚ) * ACCEL_SCALE
          ay := (raw_int16 (bus.next.rx 2) (bus.next.rx 3) : ℚ) * ACCEL_SCALE
          az := (raw_int16 (bus.next.rx 4) (bus.next.rx 5) : ℚ) * ACCEL_SCALE },
        { bus with log := bus.log ++
            [i2c_transaction.write_read port MPU6050_ADDR [MPU6050_ACCEL_XOUT_H] 6] }) := by
  simp [mpu6050_read_accel, i2c_master_write_read_device, h]

theorem mpu6050_read_accel_fail (bus : i2c_bus) (port : Nat) (data : mpu6050_data_t)
    (h : bus.next.res ≠ ESP_OK) :
    mpu6050_read_accel bus port data =
      (bus.next.res, data,
        { bus with log := bus.log ++
            [i2c_transaction.write_read port MPU6050_ADDR [MPU6050_ACCEL_XOUT_H] 6] }) := by
  simp [mpu6050_read_accel, i2c_master_write_read_device, h]

theorem accel_readout_cycle_of_ok_read (config : task_config_t) (now : Int)
    (t : accel_task) (hs : config.start = true) (hf : t.bus.next.res = ESP_OK) :
    accel_readout_cycle config now t =
      { accel_data := (mpu6050_read_accel t.bus I2C_NUM_0 t.accel_data).2.1
        accel_bias_data := t.accel_bias_data
        motion := process_accel_data (mpu6050_read_accel t.bus I2C_NUM_0 t.accel_data).2.1
          t.accel_bias_data config.accel_noise_floor
          (((now - t.last_time : Int) : ℚ) / 1000000) t.motion
        last_time := now
        bus := (mpu6050_read_accel t.bus I2C_NUM_0 t.accel_data).2.2
        logged := t.logged ++ [readout_log.report
          (process_accel_data (mpu6050_read_accel t.bus I2C_NUM_0 t.accel_data).2.1
          t.accel_bias_data config.accel_noise_floor
          (((now - t.last_time : Int) : ℚ) / 1000000) t.motion).state] } := by
  simp [accel_readout_cycle, hs, mpu6050_read_accel_ok _ _ _ hf]

theorem task_after_first_cycle_eq : task_after_first_cycle =
   { accel_data := { zero_data with ax := 9.80665 }
     accel_bias_data := zero_bias
     motion := { zero_motion with state.ax := 9.80665, state.vx := 0.4903325, state.dx := 0.024516625, counts.ay_still_count := 1, counts.az_still_count := 1 }
     last_time := 50000
     bus := { bus_failing_after_first with log := [i2c_transaction.write_read I2C_NUM_0 MPU6050_ADDR [MPU6050_ACCEL_XOUT_H] 6] }
     logged := [readout_log.report { zero_motion.state with ax := 9.80665, vx := 0.4903325, dx := 0.024516625 }] } := by
  have h0 : task_failing_after_first.bus.next.res = ESP_OK := rfl
  have hx : raw_int16 (task_failing_after_first.bus.next.rx 0) (task_failing_after_first.bus.next.rx 1) = 16384 := by decide
  have hy : raw_int16 (task_failing_after_first.bus.next.rx 2) (task_failing_after_first.bus.next.rx 3) = 0 := by decide
  have hz : raw_int16 (task_failing_after_first.bus.next.rx 4) (task_failing_after_first.bus.next.rx 5) = 0 := by decide
  rw [task_after_first_cycle, accel_readout_cycle_of_ok_read _ _ _ rfl h0,
    mpu6050_read_accel_ok _ _ _ h0, hx, hy, hz]
  norm_num [default_config, task_failing_after_first, zero_data, zero_bias, zero_motion, process_accel_data,
    ACCEL_SCALE, abs_lt, int_wrap, bus_failing_after_first]

/-- C1 (evaluation at the failing input): after a first cycle whose read succeeds with
x = 16384 (9.80665 m/s²), the read of the second cycle fails with `ESP_FAIL`, and
`accel_readout_task` still changes the motion state and the counters: `process_accel_data`
ran on the sample of the first cycle. -/
theorem accel_readout_cycle_failed_read_changes_state :
    (mpu6050_read_accel task_after_first_cycle.bus I2C_NUM_0
        task_after_first_cycle.accel_data).1 = ESP_FAIL ∧
    task_after_first_cycle.motion.state.vx = 0.4903325 ∧
    task_after_first_cycle.motion.state.dx = 0.024516625 ∧
    task_after_first_cycle.motion.counts.ay_still_count = 1 ∧
    (accel_readout_cycle default_config 100000 task_after_first_cycle).motion.state.vx
      = 0.980665 ∧
    (accel_readout_cycle default_config 100000 task_after_first_cycle).motion.state.dx
      = 0.073549875 ∧
    (accel_readout_cycle default_config 100000 task_after_first_cycle).motion.counts.ay_still_count
      = 2 ∧
    (accel_readout_cycle default_config 100000 task_after_first_cycle).motion
      ≠ task_after_first_cycle.motion := by
  have hf : task_after_first_cycle.bus.next.res ≠ ESP_OK := by
    rw [task_after_first_cycle_eq]; decide
  have hm := accel_readout_cycle_of_failed_read default_config 100000 task_after_first_cycle
    rfl hf
  rw [hm, mpu6050_read_accel_fail _ _ _ hf]
  rw [task_after_first_cycle_eq]
  norm_num [default_config, zero_data, zero_bias, zero_motion, process_accel_data,
    abs_lt, int_wrap, bus_failing_after_first, i2c_bus.next, reply_nack, ESP_FAIL]

/-! ## Runs of the integrator -/

theorem process_accel_run_concat (calls : List accel_call) (c : accel_call) (m : integrator) :
    process_accel_run (calls ++ [c]) m =
      process_accel_data c.data c.bias c.noise_threshold c.dt (process_accel_run calls m) := by
  simp [process_accel_run, List.foldl_append]

theorem int_wrap_of_small (n : Int) (h0 : -2147483648 ≤ n) (h1 : n < 2147483648) :
    int_wrap n = n := by
  unfold int_wrap
  omega

/-- C5: a call of `process_accel_data` with dt = 0 in which an axis takes the moving branch
(gated |a| ≥ 0.05) leaves that axis's velocity and displacement as they were, and so does
repeating the call any number of times. -/
theorem process_accel_data_zero_dt (a : Axis) (c : accel_call) (m : integrator)
    (hdt : c.dt = 0) (hmove : ¬ |c.gated a| < 0.05) :
    (a.vel (process_accel_data c.data c.bias c.noise_threshold c.dt m).state = a.vel m.state ∧
      a.disp (process_accel_data c.data c.bias c.noise_threshold c.dt m).state
        = a.disp m.state) ∧
    ∀ n : Nat,
      a.vel (process_accel_run (List.replicate n c) m).state = a.vel m.state ∧
      a.disp (process_accel_run (List.replicate n c) m).state = a.disp m.state := by
  have step : ∀ m' : integrator,
      a.vel (process_accel_data c.data c.bias c.noise_threshold c.dt m').state = a.vel m'.state ∧
      a.disp (process_accel_data c.data c.bias c.noise_threshold c.dt m').state
        = a.disp m'.state := by
    intro m'
    have ht := track_process_accel_data a c m'
    rw [axis_update, if_neg hmove] at ht
    have hv := congrArg (fun t => t.2.1) ht
    have hd := congrArg (fun t => t.2.2) ht
    simp only [Axis.track] at hv hd
    rw [hv, hd, hdt]
    constructor <;> ring
  refine ⟨step m, fun n => ?_⟩
  induction n with
  | zero => exact ⟨rfl, rfl⟩
  | succ n ih =>
    rw [List.replicate_succ', process_accel_run_concat]
    exact ⟨(step _).1.trans ih.1, (step _).2.trans ih.2⟩

theorem process_accel_data_zero_dt_witness :
    (zero_dt_call.dt = 0 ∧ ¬ |zero_dt_call.gated Axis.z| < 0.05) ∧
    ((process_accel_data zero_dt_call.data zero_dt_call.bias zero_dt_call.noise_threshold
        zero_dt_call.dt coasting_motion).state.vz = 3 ∧
      (process_accel_data zero_dt_call.data zero_dt_call.bias zero_dt_call.noise_threshold
        zero_dt_call.dt coasting_motion).state.dz = -6) ∧
    ((process_accel_run (List.replicate 5 zero_dt_call) coasting_motion).state.vz = 3 ∧
      (process_accel_run (List.replicate 5 zero_dt_call) coasting_motion).state.dz = -6) :=
  have hmove : ¬ |zero_dt_call.gated Axis.z| < 0.05 := by
    norm_num [accel_call.gated, zero_dt_call, Axis.raw, Axis.bias, zero_data, zero_bias, abs_lt]
  ⟨⟨rfl, hmove⟩,
    (process_accel_data_zero_dt Axis.z zero_dt_call coasting_motion rfl hmove).1,
    (process_accel_data_zero_dt Axis.z zero_dt_call coasting_motion rfl hmove).2 5⟩

/-! ## The driver -/

/-- C6: when the four bus writes succeed, `mpu6050_config` returns `ESP_OK` after exactly
four 2-byte writes to device 0x68, in the order (0x19, smplrt_div), (0x1A, dlpf_cfg),
(0x1B, (gyro_range << 3) mod 256), (0x1C, (accel_range << 3) mod 256); accel range 2
writes 16 to register 0x1C. -/
theorem mpu6050_config_writes (bus : i2c_bus) (port : Nat) (cfg : mpu6050_config_t)
    (hok : ∀ i : Nat, i < 4 → (bus.replies (bus.log.length + i)).res = ESP_OK) :
    (mpu6050_config bus port cfg).1 = ESP_OK ∧
    (mpu6050_config bus port cfg).2.replies = bus.replies ∧
    (mpu6050_config bus port cfg).2.log = bus.log ++
      [i2c_transaction.write port 0x68 [0x19, cfg.smplrt_div],
       i2c_transaction.write port 0x68 [0x1A, cfg.dlpf_cfg],
       i2c_transaction.write port 0x68 [0x1B, to_uint8 (cfg.gyro_range.val <<< 3)],
       i2c_transaction.write port 0x68 [0x1C, to_uint8 (cfg.accel_range.val <<< 3)]] ∧
    (to_uint8 (cfg.gyro_range.val <<< 3)).val = (cfg.gyro_range.val * 8) % 256 ∧
    (to_uint8 (cfg.accel_range.val <<< 3)).val = (cfg.accel_range.val * 8) % 256 ∧
    (cfg.accel_range = 2 → to_uint8 (cfg.accel_range.val <<< 3) = 16) := by
  have h0 := hok 0 (by decide)
  have h1 := hok 1 (by decide)
  have h2 := hok 2 (by decide)
  have h3 := hok 3 (by decide)
  simp only [Nat.add_zero] at h0
  refine ⟨?_, ?_, ?_, ?_, ?_, ?_⟩
  · simp [mpu6050_config, i2c_master_write_to_device, i2c_bus.next, h0, h1, h2, h3]
  · simp [mpu6050_config, i2c_master_write_to_device, i2c_bus.next, h0, h1, h2, h3]
  · simp [mpu6050_config, i2c_master_write_to_device, i2c_bus.next, h0, h1, h2, h3,
      MPU6050_ADDR, MPU6050_SMPLRT_DIV, MPU6050_CONFIG, MPU6050_GYRO_CONFIG,
      MPU6050_ACCEL_CONFIG]
  · simp [to_uint8, Nat.shiftLeft_eq]
  · simp [to_uint8, Nat.shiftLeft_eq]
  · intro h; rw [h]; decide

theorem mpu6050_config_writes_witness :
    (∀ i : Nat, i < 4 → (bus_all_ok.replies (bus_all_ok.log.length + i)).res = ESP_OK) ∧
    (mpu6050_config bus_all_ok I2C_NUM_0 config_range_8g).1 = ESP_OK ∧
    (mpu6050_config bus_all_ok I2C_NUM_0 config_range_8g).2.log =
      [i2c_transaction.write 0 0x68 [0x19, 0], i2c_transaction.write 0 0x68 [0x1A, 3],
       i2c_transaction.write 0 0x68 [0x1B, 0], i2c_transaction.write 0 0x68 [0x1C, 16]] :=
  ⟨fun _ _ => rfl,
    (mpu6050_config_writes bus_all_ok I2C_NUM_0 config_range_8g (fun _ _ => rfl)).1,
    (mpu6050_config_writes bus_all_ok I2C_NUM_0 config_range_8g (fun _ _ => rfl)).2.2.1⟩

theorem accel_fields_set (d : mpu6050_data_t) (x y z : ℚ) :
    ({ d with ax := x, ay := y, az := z } : mpu6050_data_t).ax = x ∧
    ({ d with ax := x, ay := y, az := z } : mpu6050_data_t).ay = y ∧
    ({ d with ax := x, ay := y, az := z } : mpu6050_data_t).az = z :=
  ⟨rfl, rfl, rfl⟩

theorem mpu6050_init_bus_error (bus : i2c_bus) (port : Nat) (h : bus.next.res ≠ ESP_OK) :
    mpu6050_init bus port = (bus.next.res,
      { bus with log := bus.log ++ [i2c_transaction.write_read port 0x68 [0x75] 1] }) := by
  simp [mpu6050_init, i2c_master_write_read_device, h, MPU6050_ADDR, MPU6050_WHO_AM_I]

theorem mpu6050_init_mismatch (bus : i2c_bus) (port : Nat) (h : bus.next.res = ESP_OK)
    (hid : bus.next.rx 0 ≠ 0x68) :
    mpu6050_init bus port = (ESP_FAIL,
      { bus with log := bus.log ++ [i2c_transaction.write_read port 0x68 [0x75] 1] }) := by
  have hid' : ¬ bus.next.rx 0 = MPU6050_DEVICE_ID := hid
  simp [mpu6050_init, i2c_master_write_read_device, h, hid', MPU6050_ADDR, MPU6050_WHO_AM_I]

/-- C8 (counterexample): a WHO_AM_I transaction that is not acknowledged fails with
`ESP_FAIL`, a non-OK result; a successful transaction that reads identity 0x00 is a
mismatch; `mpu6050_init` returns the same code in both cases. -/
theorem mpu6050_init_mismatch_code_not_distinct :
    bus_all_nack.next.res ≠ ESP_OK ∧
    bus_all_ok.next.res = ESP_OK ∧ bus_all_ok.next.rx 0 ≠ 0x68 ∧
    (mpu6050_init bus_all_ok I2C_NUM_0).1 = (mpu6050_init bus_all_nack I2C_NUM_0).1 := by
  have h1 : bus_all_nack.next.res ≠ ESP_OK := by decide
  have h2 : bus_all_ok.next.res = ESP_OK := rfl
  have h3 : bus_all_ok.next.rx 0 ≠ 0x68 := by decide
  refine ⟨h1, h2, h3, ?_⟩
  rw [mpu6050_init_mismatch _ _ h2 h3, mpu6050_init_bus_error _ _ h1]
  rfl

/-- C8 (amended): for a WHO_AM_I transaction that fails with result e, `mpu6050_init`
returns e; for one that succeeds with an identity byte other than 0x68 it returns
`ESP_FAIL`; the two codes differ exactly when e is not `ESP_FAIL`; in both cases the only
transaction issued is the WHO_AM_I read (no wake-up or clock-select write). -/
theorem mpu6050_init_error_codes (bus_m bus_e : i2c_bus) (port : Nat)
    (hm : bus_m.next.res = ESP_OK) (hid : bus_m.next.rx 0 ≠ 0x68)
    (he : bus_e.next.res ≠ ESP_OK) :
    (mpu6050_init bus_m port).1 = ESP_FAIL ∧
    (mpu6050_init bus_e port).1 = bus_e.next.res ∧
    ((mpu6050_init bus_m port).1 ≠ (mpu6050_init bus_e port).1 ↔ bus_e.next.res ≠ ESP_FAIL) ∧
    (mpu6050_init bus_m port).2.log
      = bus_m.log ++ [i2c_transaction.write_read port 0x68 [0x75] 1] ∧
    (mpu6050_init bus_e port).2.log
      = bus_e.log ++ [i2c_transaction.write_read port 0x68 [0x75] 1] := by
  rw [mpu6050_init_mismatch _ _ hm hid, mpu6050_init_bus_error _ _ he]
  refine ⟨rfl, rfl, ?_, rfl, rfl⟩
  constructor
  · intro h h'
    exact h h'.symm
  · intro h h'
    exact h h'.symm

theorem mpu6050_init_error_codes_witness :
    (bus_all_ok.next.res = ESP_OK ∧ bus_all_ok.next.rx 0 ≠ 0x68 ∧
      bus_timeout.next.res ≠ ESP_OK) ∧
    (mpu6050_init bus_all_ok I2C_NUM_0).1 = ESP_FAIL ∧
    (mpu6050_init bus_timeout I2C_NUM_0).1 = ESP_ERR_TIMEOUT ∧
    (mpu6050_init bus_all_ok I2C_NUM_0).1 ≠ (mpu6050_init bus_timeout I2C_NUM_0).1 ∧
    (mpu6050_init bus_all_ok I2C_NUM_0).2.log
      = [i2c_transaction.write_read 0 0x68 [0x75] 1] ∧
    (mpu6050_init bus_timeout I2C_NUM_0).2.log
      = [i2c_transaction.write_read 0 0x68 [0x75] 1] :=
  have h1 : bus_all_ok.next.rx 0 ≠ 0x68 := by decide
  have h2 : bus_timeout.next.res ≠ ESP_OK := by decide
  have h := mpu6050_init_error_codes bus_all_ok bus_timeout I2C_NUM_0 rfl h1 h2
  ⟨⟨rfl, h1, h2⟩, h.1, h.2.1, h.2.2.1.mpr (by decide), h.2.2.2.1, h.2.2.2.2⟩

/-! ## Calibration -/

/-- The reading `mpu6050_read_accel` stores on success is `reply_accel` of the reply. -/
theorem mpu6050_read_accel_reply_accel (bus : i2c_bus) (port : Nat) (data : mpu6050_data_t)
    (hok : bus.next.res = ESP_OK) (a : Axis) :
    a.raw (mpu6050_read_accel bus port data).2.1 = reply_accel a bus.next := by
  rewrite [mpu6050_read_accel_ok bus port data hok]
  cases a
  · exact (accel_fields_set data _ _ _).1
  · exact (accel_fields_set data _ _ _).2.1
  · exact (accel_fields_set data _ _ _).2.2

theorem strncmp_own_length (p rest : List Char) :
    strncmp (p ++ rest) p p.length = 0 := by
  induction p with
  | nil => simp [strncmp]
  | cons c p ih => simp [strncmp, ih]

/-- Comparing one character more than the length of a prefix `p` sets the first
character after the prefix against the terminator of `p`. -/
theorem strncmp_one_more (p : List Char) (c : Char) (rest : List Char) :
    strncmp (p ++ c :: rest) p (p.length + 1) = (c.toNat : Int) := by
  induction p with
  | nil => simp [strncmp]
  | cons d p ih => simp [strncmp, ih]

theorem fgets_take_line (l more : List Char) (hl : ∀ c ∈ l, c ≠ LF) :
    ∀ n : Nat, l.length < n → fgets_take n (l ++ LF :: more) = l ++ [LF] := by
  induction l with
  | nil =>
    intro n hn
    obtain ⟨k, rfl⟩ : ∃ k, n = k + 1 := ⟨n - 1, by simp at hn; omega⟩
    simp [fgets_take]
  | cons c l ih =>
    intro n hn
    obtain ⟨k, rfl⟩ : ∃ k, n = k + 1 := ⟨n - 1, by simp at hn; omega⟩
    have hc : c ≠ LF := hl c (List.mem_cons_self _ _)
    have := ih (fun c' hc' => hl c' (List.mem_cons_of_mem _ hc')) k
      (by simp at hn; omega)
    simp [fgets_take, hc, this]

theorem c_string_of_terminated (s tail : List Char) (hs : ∀ c ∈ s, c ≠ NUL) :
    c_string (s ++ NUL :: tail) 0 = s := by
  unfold c_string
  rw [List.drop_zero]
  induction s with
  | nil => simp [List.takeWhile]
  | cons c s ih =>
    have hc : c ≠ NUL := hs c (List.mem_cons_self _ _)
    have hp : (c != NUL) = true := by simpa using hc
    rw [List.cons_append, List.takeWhile_cons, hp, if_pos rfl,
      ih (fun c' hc' => hs c' (List.mem_cons_of_mem _ hc'))]

theorem strcspn_line (s : List Char) (hs : ∀ c ∈ s, c ≠ CR ∧ c ≠ LF) :
    strcspn (s ++ [LF]) [CR, LF] = s.length := by
  unfold strcspn
  induction s with
  | nil => simp [List.takeWhile]
  | cons c s ih =>
    have hc := hs c (List.mem_cons_self _ _)
    have hp : (!([CR, LF].contains c)) = true := by simp [hc.1, hc.2]
    rw [List.cons_append, List.takeWhile_cons, hp, if_pos rfl]
    simp only [List.length_cons]
    rw [ih (fun c' hc' => hs c' (List.mem_cons_of_mem _ hc'))]

theorem set_terminator (s tail : List Char) (c : Char) :
    (s ++ c :: tail).set s.length NUL = s ++ NUL :: tail := by
  induction s with
  | nil => rfl
  | cons d s ih => simp [ih]

theorem noise_floor_literal_chars :
    ∀ c ∈ noise_floor_literal, c ≠ NUL ∧ c ≠ CR ∧ c ≠ LF := by
  decide

/-- Characters behind the first `n` of a string play no part in `strncmp` over `n`. -/
theorem strncmp_append_left (tail : List Char) :
    ∀ (a b : List Char) (n : Nat), n ≤ a.length →
      strncmp (a ++ tail) b n = strncmp a b n := by
  intro a
  induction a with
  | nil =>
    intro b n hn
    obtain rfl : n = 0 := by simpa using hn
    simp [strncmp]
  | cons c a ih =>
    intro b n hn
    cases n with
    | zero => simp [strncmp]
    | succ n =>
      cases b with
      | nil => simp [strncmp]
      | cons d b =>
        have := ih b n (by simpa using hn)
        simp [strncmp, this]

/-- A line with a character after the 22 characters of `set_accel_noise_floor:` passes none
of the comparisons of `command_listener_task`. -/
theorem strncmp_noise_floor_line (c0 : Char) (rest : List Char) (h0 : c0 ≠ NUL) :
    strncmp (noise_floor_literal ++ c0 :: rest) "reset".toList 5 ≠ 0 ∧
    strncmp (noise_floor_literal ++ c0 :: rest) "set_rate:".toList 9 ≠ 0 ∧
    strncmp (noise_floor_literal ++ c0 :: rest) "set_accel_noise_floor:".toList 23 ≠ 0 ∧
    strncmp (noise_floor_literal ++ c0 :: rest) "set_mpu6050_config:".toList 19 ≠ 0 ∧
    strncmp (noise_floor_literal ++ c0 :: rest) "start".toList 5 ≠ 0 ∧
    strncmp (noise_floor_literal ++ c0 :: rest) "stop".toList 4 ≠ 0 := by
  have h23 : strncmp (noise_floor_literal ++ c0 :: rest) "set_accel_noise_floor:".toList 23
      = (c0.toNat : Int) := strncmp_one_more noise_floor_literal c0 rest
  have hc : (c0.toNat : Int) ≠ 0 := by
    intro h
    apply h0
    have hz : c0.toNat = 0 := by exact_mod_cast h
    rw [← Char.ofNat_toNat c0, hz]
    rfl
  refine ⟨?_, ?_, by rw [h23]; exact hc, ?_, ?_, ?_⟩
  · rw [strncmp_append_left _ _ _ _ (by decide)]; decide
  · rw [strncmp_append_left _ _ _ _ (by decide)]; decide
  · rw [strncmp_append_left _ _ _ _ (by decide)]; decide
  · rw [strncmp_append_left _ _ _ _ (by decide)]; decide
  · rw [strncmp_append_left _ _ _ _ (by decide)]; decide

/-- The C string left in the buffer after `fgets` and the cut at the line end, for a line
`cmd` without NUL, CR or LF that is followed by a line feed. -/
theorem c_string_after_cut (cmd tail : List Char)
    (hcmd : ∀ c ∈ cmd, c ≠ NUL ∧ c ≠ CR ∧ c ≠ LF) :
    c_string ((cmd ++ [LF] ++ [NUL] ++ tail).set
      (strcspn (c_string (cmd ++ [LF] ++ [NUL] ++ tail) 0) [CR, LF]) NUL) 0 = cmd := by
  have hnul : ∀ c ∈ cmd ++ [LF], c ≠ NUL := by
    intro c hc
    rcases List.mem_append.mp hc with h | h
    · exact (hcmd c h).1
    · rw [List.mem_singleton.mp h]; decide
  have e1 : cmd ++ [LF] ++ [NUL] ++ tail = (cmd ++ [LF]) ++ NUL :: tail := by simp
  have e2 : cmd ++ [LF] ++ [NUL] ++ tail = cmd ++ LF :: (NUL :: tail) := by simp
  rw [e1, c_string_of_terminated _ _ hnul,
    strcspn_line cmd (fun c hc => ⟨(hcmd c hc).2.1, (hcmd c hc).2.2⟩), ← e1, e2,
    set_terminator, c_string_of_terminated _ _ (fun c hc => (hcmd c hc).1)]

/-- Every line made of `set_accel_noise_floor:` and at least one more character is
reported as an unknown command, and the configuration keeps its values. -/
theorem command_listener_cycle_noise_floor_line (L : libc_conv) (t : listener)
    (c0 : Char) (rest more : List Char)
    (hnum : ∀ c ∈ c0 :: rest, c ≠ NUL ∧ c ≠ CR ∧ c ≠ LF)
    (hlen : (c0 :: rest).length ≤ 104)
    (hin : t.stdin = (noise_floor_literal ++ c0 :: rest) ++ LF :: more) :
    (command_listener_cycle L t).config = t.config ∧
    (command_listener_cycle L t).logged = t.logged ++
      [listener_log.received (noise_floor_literal ++ c0 :: rest),
       listener_log.unknown_command (noise_floor_literal ++ c0 :: rest)] ∧
    (command_listener_cycle L t).restarted = t.restarted := by
  have hcmd : ∀ c ∈ noise_floor_literal ++ c0 :: rest, c ≠ NUL ∧ c ≠ CR ∧ c ≠ LF := by
    intro c hc
    rcases List.mem_append.mp hc with h | h
    · exact noise_floor_literal_chars c h
    · exact hnum c h
  have hl : (noise_floor_literal ++ c0 :: rest).length < CMD_BUF_SIZE - 1 := by
    have h22 : noise_floor_literal.length = 22 := by decide
    rw [List.length_append, h22]
    have : CMD_BUF_SIZE - 1 = 127 := by decide
    omega
  have htake := fgets_take_line (noise_floor_literal ++ c0 :: rest) more
    (fun c hc => (hcmd c hc).2.2) (CMD_BUF_SIZE - 1) hl
  have hf : fgets t.buf CMD_BUF_SIZE t.stdin = some
      (noise_floor_literal ++ c0 :: rest ++ [LF] ++ [NUL]
        ++ t.buf.drop ((noise_floor_literal ++ c0 :: rest ++ [LF]).length + 1),
       t.stdin.drop (noise_floor_literal ++ c0 :: rest ++ [LF]).length) := by
    unfold fgets
    rw [hin, htake]
    simp
  obtain ⟨s1, s2, s3, s4, s5, s6⟩ := strncmp_noise_floor_line c0 rest (hnum c0
    (List.mem_cons_self _ _)).1
  have hcut := c_string_after_cut (noise_floor_literal ++ c0 :: rest)
    (t.buf.drop ((noise_floor_literal ++ c0 :: rest ++ [LF]).length + 1)) hcmd
  simp only [command_listener_cycle, hf, hcut, s1, s2, s3, s4, s5, s6, if_false]
  simp

/-- The only line that reaches the noise-floor branch is the bare literal: the branch then
stores what `atof` makes of the buffer behind the terminator (here the empty string) and
leaves the other fields of the configuration as they were. -/
theorem command_listener_cycle_bare_literal (L : libc_conv) :
    (command_listener_cycle L listener_bare_literal).config
      = { default_config with accel_noise_floor := L.atof [] } ∧
    (command_listener_cycle L listener_bare_literal).logged
      = [listener_log.received "set_accel_noise_floor:".toList,
         listener_log.set_noise_floor (L.atof [])] :=
  ⟨rfl, rfl⟩

/-- C11 (evaluation at the failing input): on the line `set_accel_noise_floor:0.25`, the 22
characters of the literal followed by a number, `command_listener_task` does not take the
noise-floor branch, whatever `atof` computes: the comparison over 23 characters gives 48
(the character `0` against the terminator of the literal), the noise floor keeps its value
0.5, and the line is logged as an unknown command. -/
theorem command_listener_noise_floor_unknown (L : libc_conv) :
    noise_floor_command = noise_floor_literal ++ "0.25".toList ∧
    noise_floor_literal.length = 22 ∧
    strncmp noise_floor_command "set_accel_noise_floor:".toList 23 = 48 ∧
    strncmp noise_floor_command "set_accel_noise_floor:".toList 22 = 0 ∧
    (command_listener_cycle L listener_noise_floor).config = default_config ∧
    (command_listener_cycle L listener_noise_floor).config.accel_noise_floor = 0.5 ∧
    (command_listener_cycle L listener_noise_floor).logged
      = [listener_log.received noise_floor_command,
         listener_log.unknown_command noise_floor_command] :=
  ⟨rfl, rfl, by decide, by decide, rfl, rfl, rfl⟩

/-! ## The integrator in binary32, axis by axis -/

theorem process_accel_data_f32_blocks (c : accel_call) (m : integrator) :
    process_accel_data_f32 c.data c.bias c.noise_threshold c.dt m =
      block_store (c.gated_f32 .x) (c.gated_f32 .y) (c.gated_f32 .z)
        (block_z_f32 (c.gated_f32 .z) c.dt (block_y_f32 (c.gated_f32 .y) c.dt
          (block_x_f32 (c.gated_f32 .x) c.dt m))) := rfl

theorem track_block_x_f32 (a : Axis) (g dt : ℚ) (m : integrator) :
    a.track (block_x_f32 g dt m)
      = if a = .x then axis_update_f32 g dt (a.track m) else a.track m := by
  cases a <;>
    simp only [block_x_f32, Axis.track, axis_update_f32, Axis.count, Axis.vel, Axis.disp] <;>
    split_ifs <;> simp_all

theorem track_block_y_f32 (a : Axis) (g dt : ℚ) (m : integrator) :
    a.track (block_y_f32 g dt m)
      = if a = .y then axis_update_f32 g dt (a.track m) else a.track m := by
  cases a <;>
    simp only [block_y_f32, Axis.track, axis_update_f32, Axis.count, Axis.vel, Axis.disp] <;>
    split_ifs <;> simp_all

theorem track_block_z_f32 (a : Axis) (g dt : ℚ) (m : integrator) :
    a.track (block_z_f32 g dt m)
      = if a = .z then axis_update_f32 g dt (a.track m) else a.track m := by
  cases a <;>
    simp only [block_z_f32, Axis.track, axis_update_f32, Axis.count, Axis.vel, Axis.disp] <;>
    split_ifs <;> simp_all

/-- One call of `process_accel_data_f32` acts on each axis as `axis_update_f32` on that
axis's gated acceleration. -/
theorem track_process_accel_data_f32 (a : Axis) (c : accel_call) (m : integrator) :
    a.track (process_accel_data_f32 c.data c.bias c.noise_threshold c.dt m)
      = axis_update_f32 (c.gated_f32 a) c.dt (a.track m) := by
  rw [process_accel_data_f32_blocks, track_block_store, track_block_z_f32, track_block_y_f32,
    track_block_x_f32]
  cases a <;> simp

/-- The acceleration `process_accel_data_f32` stores for an axis is the gated binary32
difference. -/
theorem acc_process_accel_data_f32 (a : Axis) (c : accel_call) (m : integrator) :
    a.acc (process_accel_data_f32 c.data c.bias c.noise_threshold c.dt m).state
      = c.gated_f32 a := by
  cases a <;>
    simp only [process_accel_data_f32, accel_call.gated_f32, Axis.acc, Axis.raw, Axis.bias]

theorem still_threshold_f32 : round32 (round64 0.05) = 13421773 / 2 ^ 28 := by
  decide!

/-- C3 (counterexample): the x reading of 836 units is the binary32 value 8395120/2^24;
with the bias 52097/2^27 the exact difference 67108863/2^27 is below the noise floor 0.5,
but the difference the code computes is rounded to 0.5: the stored acceleration is 0.5, not
0, the counter is reset from 3 to 0 and the velocity is integrated. -/
theorem process_accel_data_f32_gate_passes_rounded_difference :
    (mpu6050_read_accel_f32 bus_reading_836 I2C_NUM_0 zero_data).2.1.ax
      = Axis.x.raw rounding_gate_call.data ∧
    |Axis.x.raw rounding_gate_call.data - Axis.x.bias rounding_gate_call.bias|
      < rounding_gate_call.noise_threshold ∧
    (process_accel_data_f32 rounding_gate_call.data rounding_gate_call.bias
      rounding_gate_call.noise_threshold rounding_gate_call.dt resting_motion).state.ax
        = 1 / 2 ∧
    (process_accel_data_f32 rounding_gate_call.data rounding_gate_call.bias
      rounding_gate_call.noise_threshold rounding_gate_call.dt resting_motion).state.ax ≠ 0 ∧
    (process_accel_data_f32 rounding_gate_call.data rounding_gate_call.bias
      rounding_gate_call.noise_threshold rounding_gate_call.dt
      resting_motion).counts.ax_still_count = 0 ∧
    (process_accel_data_f32 rounding_gate_call.data rounding_gate_call.bias
      rounding_gate_call.noise_threshold rounding_gate_call.dt resting_motion).state.vx
        = 13421773 / 2 ^ 29 := by
  decide!

/-- C3 (amended): whenever the difference raw - bias as the code computes it, rounded to
binary32, satisfies |round32 (raw - bias)| < noise_threshold on an axis,
`process_accel_data_f32` stores acceleration 0 for that axis and increments the axis's
stillness counter by one as a C `int`; for a counter below `INT_MAX` this is the counter
plus one. -/
theorem process_accel_data_f32_noise_gate (a : Axis) (c : accel_call) (m : integrator)
    (h : |round32 (a.raw c.data - a.bias c.bias)| < c.noise_threshold) :
    a.acc (process_accel_data_f32 c.data c.bias c.noise_threshold c.dt m).state = 0 ∧
    a.count (process_accel_data_f32 c.data c.bias c.noise_threshold c.dt m).counts
      = int_wrap (a.count m.counts + 1) ∧
    (-2147483648 ≤ a.count m.counts → a.count m.counts < 2147483647 →
      a.count (process_accel_data_f32 c.data c.bias c.noise_threshold c.dt m).counts
        = a.count m.counts + 1) := by
  have hg : c.gated_f32 a = 0 := by simp [accel_call.gated_f32, h]
  have ht := track_process_accel_data_f32 a c m
  have hc := congrArg Prod.fst ht
  simp only [Axis.track, axis_update_f32, hg, abs_zero] at hc
  rw [if_pos (by rw [still_threshold_f32]; norm_num)] at hc
  refine ⟨by rw [acc_process_accel_data_f32, hg], hc, fun h0 h1 => ?_⟩
  rw [hc, int_wrap_of_small _ (by omega) (by omega)]

theorem process_accel_data_f32_noise_gate_witness :
    (∀ a : Axis,
      |round32 (a.raw gating_scenario_call_f32.data - a.bias gating_scenario_call_f32.bias)|
        < gating_scenario_call_f32.noise_threshold) ∧
    (∀ a : Axis,
      a.acc (process_accel_data_f32 gating_scenario_call_f32.data
        gating_scenario_call_f32.bias gating_scenario_call_f32.noise_threshold
        gating_scenario_call_f32.dt zero_motion).state = 0 ∧
      a.count (process_accel_data_f32 gating_scenario_call_f32.data
        gating_scenario_call_f32.bias gating_scenario_call_f32.noise_threshold
        gating_scenario_call_f32.dt zero_motion).counts = 1) :=
  have h : ∀ a : Axis,
      |round32 (a.raw gating_scenario_call_f32.data - a.bias gating_scenario_call_f32.bias)|
        < gating_scenario_call_f32.noise_threshold := by
    intro a
    cases a <;> decide!
  ⟨h, fun a =>
    ⟨(process_accel_data_f32_noise_gate a gating_scenario_call_f32 zero_motion (h a)).1,
      by
        have hc :=
          (process_accel_data_f32_noise_gate a gating_scenario_call_f32 zero_motion (h a)).2.2
        cases a <;> exact hc (by decide) (by decide)⟩⟩

/-! ## Integration in binary32 -/

theorem process_accel_run_f32_concat (calls : List accel_call) (c : accel_call)
    (m : integrator) :
    process_accel_run_f32 (calls ++ [c]) m =
      process_accel_data_f32 c.data c.bias c.noise_threshold c.dt
        (process_accel_run_f32 calls m) := by
  simp [process_accel_run_f32, List.foldl_append]

theorem gated_f32_of_zero_floor (a : Axis) (c : accel_call) (hb : a.bias c.bias = 0)
    (hn : c.noise_threshold = 0) : c.gated_f32 a = round32 (a.raw c.data) := by
  rw [accel_call.gated_f32, hb, hn, if_neg (not_lt.mpr (abs_nonneg _)), sub_zero]

/-- A run of moving calls with a constant reading and step follows `euler_f32`. -/
theorem moving_run_f32 (a : Axis) (acc dt : ℚ) (m : integrator)
    (hv0 : a.vel m.state = 0) (hd0 : a.disp m.state = 0)
    (hacc : round32 acc = acc) (hmove : ¬ |acc| < round32 (round64 0.05))
    (calls : List accel_call) :
    (∀ c ∈ calls,
      a.raw c.data = acc ∧ a.bias c.bias = 0 ∧ c.noise_threshold = 0 ∧ c.dt = dt) →
    a.vel (process_accel_run_f32 calls m).state = (euler_f32 acc dt calls.length).1 ∧
    a.disp (process_accel_run_f32 calls m).state = (euler_f32 acc dt calls.length).2 := by
  induction calls using List.reverseRecOn with
  | nil =>
    intro _
    exact ⟨hv0, hd0⟩
  | append_singleton cs c ih =>
    intro hc
    obtain ⟨hr, hb, hn, hdt⟩ := hc c (by simp)
    obtain ⟨h1, h2⟩ := ih (fun c' hc' => hc c' (by simp [hc']))
    have hg : c.gated_f32 a = acc := by rw [gated_f32_of_zero_floor a c hb hn, hr, hacc]
    have ht := track_process_accel_data_f32 a c (process_accel_run_f32 cs m)
    rw [axis_update_f32, hg, if_neg hmove] at ht
    have hv := congrArg (fun t => t.2.1) ht
    have hd := congrArg (fun t => t.2.2) ht
    simp only [Axis.track] at hv hd
    rw [process_accel_run_f32_concat, hv, hd, h1, h2, hdt]
    simp only [List.length_append, List.length_singleton, euler_f32, and_self]

/-- When no product or sum is rounded, `euler_f32` has the closed form of the
semi-implicit Euler scheme. -/
theorem euler_f32_exact (acc dt : ℚ) (n : Nat)
    (hex : ∀ k : Nat, k ≤ n →
      round32 (k * acc * dt) = k * acc * dt ∧
      round32 (k * acc * dt * dt) = k * acc * dt * dt ∧
      round32 (acc * dt ^ 2 * k * (k + 1) / 2) = acc * dt ^ 2 * k * (k + 1) / 2) :
    ∀ j : Nat, j ≤ n →
      euler_f32 acc dt j = ((j : ℚ) * acc * dt, acc * dt ^ 2 * j * (j + 1) / 2) := by
  intro j
  induction j with
  | zero => intro _; simp [euler_f32]
  | succ j ih =>
    intro hj
    have h1 : round32 (acc * dt) = acc * dt := by
      have := (hex 1 (by omega)).1
      simpa using this
    obtain ⟨e1, e2, e3⟩ := hex (j + 1) hj
    have hv : (j : ℚ) * acc * dt + acc * dt = ((j + 1 : Nat) : ℚ) * acc * dt := by
      push_cast; ring
    have hd : acc * dt ^ 2 * (j : ℚ) * ((j : ℚ) + 1) / 2
        + ((j + 1 : Nat) : ℚ) * acc * dt * dt
        = acc * dt ^ 2 * ((j + 1 : Nat) : ℚ) * (((j + 1 : Nat) : ℚ) + 1) / 2 := by
      push_cast; ring
    rw [euler_f32, ih (by omega)]
    simp only [h1, hv, e1, e2, hd, e3]

/-- C4 (counterexample): with x reading 1.0, zero bias, noise floor 0 and the step 0.1 s
as the `float` 13421773/2^27, one call from rest gives vx = dt but dx = 10737419/2^30,
which is neither a·dt²·n·(n+1)/2 = dt² nor 0.01 nor the `float` nearest 0.01. -/
theorem process_accel_data_f32_displacement_rounded :
    (Axis.x.vel zero_motion.state = 0 ∧ Axis.x.disp zero_motion.state = 0 ∧
      Axis.x.raw tenth_second_call.data = 1 ∧ Axis.x.bias tenth_second_call.bias = 0 ∧
      tenth_second_call.noise_threshold = 0 ∧ ¬ |(1 : ℚ)| < 0.05 ∧
      tenth_second_call.dt = 13421773 / 2 ^ 27) ∧
    (process_accel_run_f32 [tenth_second_call] zero_motion).state.vx
      = 1 * 1 * tenth_second_call.dt ∧
    (process_accel_run_f32 [tenth_second_call] zero_motion).state.dx = 10737419 / 2 ^ 30 ∧
    (process_accel_run_f32 [tenth_second_call] zero_motion).state.dx
      ≠ 1 * tenth_second_call.dt ^ 2 * 1 * (1 + 1) / 2 ∧
    (process_accel_run_f32 [tenth_second_call] zero_motion).state.dx ≠ 0.01 ∧
    (process_accel_run_f32 [tenth_second_call] zero_motion).state.dx ≠ round32 0.01 := by
  decide!

/-- C4 (amended): starting from velocity 0 and displacement 0 on an axis, with zero bias,
noise floor 0, a constant binary32 reading `acc` that is not below the stillness threshold
and a constant step `dt`, `n` consecutive calls give the velocity and displacement of
`euler_f32`: v ← round32 (v + round32 (acc·dt)), then d ← round32 (d + round32 (v·dt)) with
the new v. When none of these products and sums is rounded, they are n·acc·dt and
acc·dt²·n·(n+1)/2. -/
theorem process_accel_data_f32_semi_implicit_euler (a : Axis) (acc dt : ℚ)
    (calls : List accel_call) (m : integrator)
    (hv0 : a.vel m.state = 0) (hd0 : a.disp m.state = 0)
    (hacc : round32 acc = acc) (hmove : ¬ |acc| < round32 (round64 0.05))
    (hcalls : ∀ c ∈ calls,
      a.raw c.data = acc ∧ a.bias c.bias = 0 ∧ c.noise_threshold = 0 ∧ c.dt = dt) :
    (a.vel (process_accel_run_f32 calls m).state = (euler_f32 acc dt calls.length).1 ∧
      a.disp (process_accel_run_f32 calls m).state = (euler_f32 acc dt calls.length).2) ∧
    ((∀ k : Nat, k ≤ calls.length →
        round32 (k * acc * dt) = k * acc * dt ∧
        round32 (k * acc * dt * dt) = k * acc * dt * dt ∧
        round32 (acc * dt ^ 2 * k * (k + 1) / 2) = acc * dt ^ 2 * k * (k + 1) / 2) →
      a.vel (process_accel_run_f32 calls m).state = calls.length * acc * dt ∧
      a.disp (process_accel_run_f32 calls m).state
        = acc * dt ^ 2 * calls.length * (calls.length + 1) / 2) := by
  have hrun := moving_run_f32 a acc dt m hv0 hd0 hacc hmove calls hcalls
  refine ⟨hrun, fun hex => ?_⟩
  have hcl := euler_f32_exact acc dt calls.length hex calls.length (le_refl _)
  rw [hrun.1, hrun.2, hcl]
  exact ⟨rfl, rfl⟩

theorem process_accel_data_f32_semi_implicit_euler_witness :
    (Axis.x.vel zero_motion.state = 0 ∧ Axis.x.disp zero_motion.state = 0 ∧
      round32 1 = 1 ∧ ¬ |(1 : ℚ)| < round32 (round64 0.05)) ∧
    ((process_accel_run_f32 (List.replicate 1 eighth_second_call) zero_motion).state.vx
        = 0.125 ∧
      (process_accel_run_f32 (List.replicate 1 eighth_second_call) zero_motion).state.dx
        = 0.015625) ∧
    ((process_accel_run_f32 (List.replicate 2 eighth_second_call) zero_motion).state.vx
        = 0.25 ∧
      (process_accel_run_f32 (List.replicate 2 eighth_second_call) zero_motion).state.dx
        = 0.046875) ∧
    ((process_accel_run_f32 (List.replicate 3 eighth_second_call) zero_motion).state.vx
        = 0.375 ∧
      (process_accel_run_f32 (List.replicate 3 eighth_second_call) zero_motion).state.dx
        = 0.09375) :=
  have hacc : round32 1 = 1 := by decide!
  have hmove : ¬ |(1 : ℚ)| < round32 (round64 0.05) := by decide!
  have hcalls : ∀ n : Nat, ∀ c ∈ List.replicate n eighth_second_call,
      Axis.x.raw c.data = 1 ∧ Axis.x.bias c.bias = 0 ∧ c.noise_threshold = 0
        ∧ c.dt = 0.125 := by
    intro n c hc
    rw [List.eq_of_mem_replicate hc]
    exact ⟨rfl, rfl, rfl, rfl⟩
  have hex : ∀ k : Nat, k ≤ 3 →
      round32 (k * 1 * 0.125) = k * 1 * 0.125 ∧
      round32 (k * 1 * 0.125 * 0.125) = k * 1 * 0.125 * 0.125 ∧
      round32 (1 * (0.125 : ℚ) ^ 2 * k * (k + 1) / 2)
        = 1 * (0.125 : ℚ) ^ 2 * k * (k + 1) / 2 := by
    decide!
  have key : ∀ n : Nat, n ≤ 3 →
      Axis.x.vel (process_accel_run_f32 (List.replicate n eighth_second_call)
        zero_motion).state = (n : ℚ) * 1 * 0.125 ∧
      Axis.x.disp (process_accel_run_f32 (List.replicate n eighth_second_call)
        zero_motion).state = 1 * (0.125 : ℚ) ^ 2 * n * (n + 1) / 2 := by
    intro n hn
    have h := (process_accel_data_f32_semi_implicit_euler Axis.x 1 0.125
      (List.replicate n eighth_second_call) zero_motion rfl rfl hacc hmove (hcalls n)).2
    simp only [List.length_replicate] at h
    exact h (fun k hk => hex k (le_trans hk hn))
  ⟨⟨rfl, rfl, hacc, hmove⟩,
    by have h := key 1 (by decide); simp only [Axis.vel, Axis.disp] at h
       constructor
       · rw [h.1]; norm_num
       · rw [h.2]; norm_num,
    by have h := key 2 (by decide); simp only [Axis.vel, Axis.disp] at h
       constructor
       · rw [h.1]; norm_num
       · rw [h.2]; norm_num,
    by have h := key 3 (by decide); simp only [Axis.vel, Axis.disp] at h
       constructor
       · rw [h.1]; norm_num
       · rw [h.2]; norm_num⟩

/-! ## Calibration in binary32 -/

theorem mpu6050_read_accel_f32_ok (bus : i2c_bus) (port : Nat) (data : mpu6050_data_t)
    (h : bus.next.res = ESP_OK) :
    mpu6050_read_accel_f32 bus port data =
      (ESP_OK,
        { data with
          ax := reply_accel_f32 .x bus.next
          ay := reply_accel_f32 .y bus.next
          az := reply_accel_f32 .z bus.next },
        bus_after_read bus port) := by
  simp [mpu6050_read_accel_f32, i2c_master_write_read_device, h, reply_accel_f32,
    bus_after_read]

theorem calibrate_loop_f32_succ_ok (port n : Nat) (bus : i2c_bus) (d : mpu6050_data_t)
    (cal : mpu6050_cal_data_t) (h : bus.next.res = ESP_OK) :
    mpu6050_calibrate_accel_loop_f32 port (n + 1) bus d cal
      = mpu6050_calibrate_accel_loop_f32 port n (bus_after_read bus port)
          { d with ax := reply_accel_f32 .x bus.next, ay := reply_accel_f32 .y bus.next,
                   az := reply_accel_f32 .z bus.next }
          { cal with ax_bias := round32 (cal.ax_bias + reply_accel_f32 .x bus.next),
                     ay_bias := round32 (cal.ay_bias + reply_accel_f32 .y bus.next),
                     az_bias := round32 (cal.az_bias + reply_accel_f32 .z bus.next) } := by
  rw [mpu6050_calibrate_accel_loop_f32, mpu6050_read_accel_f32_ok _ _ _ h]
  simp

theorem running_sum_f32_shift (a : Axis) (bus : i2c_bus) (port : Nat) (start : ℚ) :
    ∀ i : Nat,
      running_sum_f32 a (bus_after_read bus port)
          (round32 (start + reply_accel_f32 a bus.next)) i
        = running_sum_f32 a bus start (i + 1) := by
  have hidx : ∀ j : Nat, bus.log.length + 1 + j = bus.log.length + (j + 1) := by
    intro j; omega
  intro i
  induction i with
  | zero => simp [running_sum_f32, i2c_bus.next]
  | succ i ih =>
    rw [running_sum_f32, ih]
    simp only [bus_after_read, List.length_append, List.length_singleton, hidx]
    rfl

/-- The binary32 loop of `mpu6050_calibrate_accel` when its `n` reads succeed. -/
theorem calibrate_loop_f32_spec (port : Nat) :
    ∀ (n : Nat) (bus : i2c_bus) (d : mpu6050_data_t) (cal : mpu6050_cal_data_t),
    (∀ j : Nat, j < n → (bus.replies (bus.log.length + j)).res = ESP_OK) →
    (mpu6050_calibrate_accel_loop_f32 port n bus d cal).1 = none ∧
    (mpu6050_calibrate_accel_loop_f32 port n bus d cal).2.1.log.length
      = bus.log.length + n ∧
    (mpu6050_calibrate_accel_loop_f32 port n bus d cal).2.2.2.samples = cal.samples ∧
    (mpu6050_calibrate_accel_loop_f32 port n bus d cal).2.2.2.ax_bias
      = running_sum_f32 .x bus cal.ax_bias n ∧
    (mpu6050_calibrate_accel_loop_f32 port n bus d cal).2.2.2.ay_bias
      = running_sum_f32 .y bus cal.ay_bias n ∧
    (mpu6050_calibrate_accel_loop_f32 port n bus d cal).2.2.2.az_bias
      = running_sum_f32 .z bus cal.az_bias n := by
  intro n
  induction n with
  | zero =>
    intro bus d cal _
    simp [mpu6050_calibrate_accel_loop_f32, running_sum_f32]
  | succ n ih =>
    intro bus d cal hok
    have h0 : bus.next.res = ESP_OK := by
      have := hok 0 (by omega)
      simpa [i2c_bus.next] using this
    have hlen : (bus_after_read bus port).log.length = bus.log.length + 1 := by
      simp [bus_after_read]
    have hrep : (bus_after_read bus port).replies = bus.replies := rfl
    have hidx : ∀ j : Nat, bus.log.length + 1 + j = bus.log.length + (j + 1) := by
      intro j; omega
    rw [calibrate_loop_f32_succ_ok port n bus d cal h0]
    obtain ⟨r1, r2, r3, r4, r5, r6⟩ := ih (bus_after_read bus port)
      { d with ax := reply_accel_f32 .x bus.next, ay := reply_accel_f32 .y bus.next,
               az := reply_accel_f32 .z bus.next }
      { cal with ax_bias := round32 (cal.ax_bias + reply_accel_f32 .x bus.next),
                 ay_bias := round32 (cal.ay_bias + reply_accel_f32 .y bus.next),
                 az_bias := round32 (cal.az_bias + reply_accel_f32 .z bus.next) }
      (by intro j hj; rw [hrep, hlen, hidx]; exact hok (j + 1) (by omega))
    rw [r1, r2, r3, r4, r5, r6, hlen]
    refine ⟨rfl, by omega, rfl, ?_, ?_, ?_⟩
    · exact running_sum_f32_shift .x bus port cal.ax_bias n
    · exact running_sum_f32_shift .y bus port cal.ay_bias n
    · exact running_sum_f32_shift .z bus port cal.az_bias n

theorem running_sum_f32_const (a : Axis) (bus : i2c_bus) (v : ℚ) (n : Nat)
    (h : ∀ j : Nat, j < n → reply_accel_f32 a (bus.replies (bus.log.length + j)) = v) :
    ∀ i : Nat, i ≤ n → running_sum_f32 a bus 0 i = sum_f32 v i := by
  intro i
  induction i with
  | zero => intro _; rfl
  | succ i ih =>
    intro hi
    rw [running_sum_f32, sum_f32, ih (by omega), h i (by omega)]

theorem sum_f32_exact (v : ℚ) (n : Nat)
    (hex : ∀ k : Nat, k ≤ n → round32 (k * v) = k * v) :
    ∀ i : Nat, i ≤ n → sum_f32 v i = i * v := by
  intro i
  induction i with
  | zero => intro _; simp [sum_f32]
  | succ i ih =>
    intro hi
    have hv : (i : ℚ) * v + v = ((i + 1 : Nat) : ℚ) * v := by push_cast; ring
    rw [sum_f32, ih (by omega), hv, hex (i + 1) hi]

theorem calibrate_f32_of_loop_none (bus : i2c_bus) (port : Nat) (d : mpu6050_data_t)
    (cal : mpu6050_cal_data_t)
    (h : (mpu6050_calibrate_accel_loop_f32 port 100 bus d (cal_start cal)).1 = none) :
    (mpu6050_calibrate_accel_f32 bus port d cal).1 = ESP_OK ∧
    (mpu6050_calibrate_accel_f32 bus port d cal).2.2
      = (mpu6050_calibrate_accel_loop_f32 port 100 bus d (cal_start cal)).2.1 ∧
    (mpu6050_calibrate_accel_f32 bus port d cal).2.1.samples
      = (mpu6050_calibrate_accel_loop_f32 port 100 bus d (cal_start cal)).2.2.2.samples ∧
    (mpu6050_calibrate_accel_f32 bus port d cal).2.1.ax_bias
      = round32 ((mpu6050_calibrate_accel_loop_f32 port 100 bus d (cal_start cal)).2.2.2.ax_bias
        / round32 ((mpu6050_calibrate_accel_loop_f32 port 100 bus d
            (cal_start cal)).2.2.2.samples : ℚ)) ∧
    (mpu6050_calibrate_accel_f32 bus port d cal).2.1.ay_bias
      = round32 ((mpu6050_calibrate_accel_loop_f32 port 100 bus d (cal_start cal)).2.2.2.ay_bias
        / round32 ((mpu6050_calibrate_accel_loop_f32 port 100 bus d
            (cal_start cal)).2.2.2.samples : ℚ)) ∧
    (mpu6050_calibrate_accel_f32 bus port d cal).2.1.az_bias
      = round32 ((mpu6050_calibrate_accel_loop_f32 port 100 bus d (cal_start cal)).2.2.2.az_bias
        / round32 ((mpu6050_calibrate_accel_loop_f32 port 100 bus d
            (cal_start cal)).2.2.2.samples : ℚ)) := by
  have hn : (100 : Int).toNat = 100 := rfl
  simp only [cal_start] at h ⊢
  simp only [mpu6050_calibrate_accel_f32, hn, h]
  exact ⟨trivial, trivial, trivial, trivial, trivial, trivial⟩

/-- C9 (counterexample): every read succeeds with the bytes `40 00 C0 00 00 02`, so every
read returns the same reading, x = 10283018/2^20 (binary32 `411CE80A`);
`mpu6050_calibrate_accel_f32` returns `ESP_OK` with samples = 100 and
ax_bias = 10283011/2^20 (binary32 `411CE803`), which is not the reading. -/
theorem mpu6050_calibrate_accel_f32_bias_differs :
    (∀ i : Nat, i < 100 →
      (bus_constant_sample.replies (bus_constant_sample.log.length + i)).res = ESP_OK ∧
      reply_accel_f32 .x (bus_constant_sample.replies (bus_constant_sample.log.length + i))
        = 10283018 / 2 ^ 20) ∧
    (mpu6050_read_accel_f32 bus_constant_sample I2C_NUM_0 zero_data).2.1.ax
      = 10283018 / 2 ^ 20 ∧
    (mpu6050_calibrate_accel_f32 bus_constant_sample I2C_NUM_0 zero_data stale_cal).1
      = ESP_OK ∧
    (mpu6050_calibrate_accel_f32 bus_constant_sample I2C_NUM_0 zero_data stale_cal).2.1.samples
      = 100 ∧
    (mpu6050_calibrate_accel_f32 bus_constant_sample I2C_NUM_0 zero_data stale_cal).2.1.ax_bias
      = 10283011 / 2 ^ 20 ∧
    (mpu6050_calibrate_accel_f32 bus_constant_sample I2C_NUM_0 zero_data stale_cal).2.1.ax_bias
      ≠ 10283018 / 2 ^ 20 := by
  have h0 : reply_accel_f32 .x (bus_constant_sample.replies 0) = 10283018 / 2 ^ 20 := by
    decide!
  refine ⟨fun i _ => ⟨rfl, h0⟩, ?_, ?_, ?_, ?_, ?_⟩ <;> decide!

/-- C9 (amended): if the 100 reads of `mpu6050_calibrate_accel` all succeed with the same
reading (vx, vy, vz), it returns `ESP_OK` with samples = 100 and, on each axis, the bias
round32 (s / 100), where s is the binary32 running sum of 100 copies of the reading
(`sum_f32`); the bias is the reading itself when no multiple k·v, k ≤ 100, is rounded. -/
theorem mpu6050_calibrate_accel_f32_constant (bus : i2c_bus) (port : Nat)
    (accel_data : mpu6050_data_t) (cal_data : mpu6050_cal_data_t) (vx vy vz : ℚ)
    (hok : ∀ i : Nat, i < 100 → (bus.replies (bus.log.length + i)).res = ESP_OK)
    (hv : ∀ i : Nat, i < 100 →
      reply_accel_f32 .x (bus.replies (bus.log.length + i)) = vx ∧
      reply_accel_f32 .y (bus.replies (bus.log.length + i)) = vy ∧
      reply_accel_f32 .z (bus.replies (bus.log.length + i)) = vz) :
    (mpu6050_calibrate_accel_f32 bus port accel_data cal_data).1 = ESP_OK ∧
    (mpu6050_calibrate_accel_f32 bus port accel_data cal_data).2.1.samples = 100 ∧
    (mpu6050_calibrate_accel_f32 bus port accel_data cal_data).2.1.ax_bias
      = round32 (sum_f32 vx 100 / 100) ∧
    (mpu6050_calibrate_accel_f32 bus port accel_data cal_data).2.1.ay_bias
      = round32 (sum_f32 vy 100 / 100) ∧
    (mpu6050_calibrate_accel_f32 bus port accel_data cal_data).2.1.az_bias
      = round32 (sum_f32 vz 100 / 100) ∧
    (mpu6050_calibrate_accel_f32 bus port accel_data cal_data).2.2.log.length
      = bus.log.length + 100 ∧
    ((∀ k : Nat, k ≤ 100 → round32 (k * vx) = k * vx) →
      (mpu6050_calibrate_accel_f32 bus port accel_data cal_data).2.1.ax_bias = vx) ∧
    ((∀ k : Nat, k ≤ 100 → round32 (k * vy) = k * vy) →
      (mpu6050_calibrate_accel_f32 bus port accel_data cal_data).2.1.ay_bias = vy) ∧
    ((∀ k : Nat, k ≤ 100 → round32 (k * vz) = k * vz) →
      (mpu6050_calibrate_accel_f32 bus port accel_data cal_data).2.1.az_bias = vz) := by
  obtain ⟨l1, l2, l3, l4, l5, l6⟩ := calibrate_loop_f32_spec port 100 bus accel_data
    (cal_start cal_data) hok
  obtain ⟨c1, c2, c3, c4, c5, c6⟩ := calibrate_f32_of_loop_none bus port accel_data cal_data l1
  have hs : (cal_start cal_data).samples = 100 := rfl
  have h0 : (cal_start cal_data).ax_bias = 0 ∧ (cal_start cal_data).ay_bias = 0 ∧
      (cal_start cal_data).az_bias = 0 := ⟨rfl, rfl, rfl⟩
  have h100 : round32 (((100 : Int) : ℚ)) = 100 := by decide!
  have sx := running_sum_f32_const .x bus vx 100 (fun j hj => (hv j hj).1) 100 (le_refl _)
  have sy := running_sum_f32_const .y bus vy 100 (fun j hj => (hv j hj).2.1) 100 (le_refl _)
  have sz := running_sum_f32_const .z bus vz 100 (fun j hj => (hv j hj).2.2) 100 (le_refl _)
  have ex : ∀ v : ℚ, (∀ k : Nat, k ≤ 100 → round32 (k * v) = k * v) →
      round32 (sum_f32 v 100 / 100) = v := by
    intro v hex
    rw [sum_f32_exact v 100 hex 100 (le_refl _)]
    have h1 := hex 1 (by decide)
    have e : ((100 : Nat) : ℚ) * v / 100 = ((1 : Nat) : ℚ) * v := by push_cast; ring
    rw [e, h1]
    push_cast; ring
  rw [c1, c2, c3, c4, c5, c6, l2, l3, l4, l5, l6, hs, h0.1, h0.2.1, h0.2.2, h100, sx, sy, sz]
  exact ⟨rfl, rfl, rfl, rfl, rfl, rfl, ex vx, ex vy, ex vz⟩

theorem mpu6050_calibrate_accel_f32_constant_witness :
    (∀ i : Nat, i < 100 →
      (bus_short_reading.replies (bus_short_reading.log.length + i)).res = ESP_OK) ∧
    (∀ k : Nat, k ≤ 100 → round32 (k * (8154112 / 2 ^ 26 : ℚ)) = k * (8154112 / 2 ^ 26)) ∧
    (mpu6050_calibrate_accel_f32 bus_short_reading I2C_NUM_0 zero_data stale_cal).1
      = ESP_OK ∧
    (mpu6050_calibrate_accel_f32 bus_short_reading I2C_NUM_0 zero_data stale_cal).2.1.samples
      = 100 ∧
    (mpu6050_calibrate_accel_f32 bus_short_reading I2C_NUM_0 zero_data stale_cal).2.1.ax_bias
      = 8154112 / 2 ^ 26 ∧
    (mpu6050_calibrate_accel_f32 bus_short_reading I2C_NUM_0 zero_data stale_cal).2.1.ay_bias
      = 0 ∧
    (mpu6050_calibrate_accel_f32 bus_short_reading I2C_NUM_0 zero_data stale_cal).2.1.az_bias
      = 10283011 / 2 ^ 20 :=
  have hx : reply_accel_f32 .x (bus_short_reading.replies 0) = 8154112 / 2 ^ 26 := by
    decide!
  have hy : reply_accel_f32 .y (bus_short_reading.replies 0) = 0 := by decide!
  have hz : reply_accel_f32 .z (bus_short_reading.replies 0) = 10283018 / 2 ^ 20 := by
    decide!
  have hex : ∀ k : Nat, k ≤ 100 →
      round32 (k * (8154112 / 2 ^ 26 : ℚ)) = k * (8154112 / 2 ^ 26) := by decide!
  have hsy : round32 (sum_f32 0 100 / 100) = 0 := by decide!
  have hsz : round32 (sum_f32 (10283018 / 2 ^ 20) 100 / 100) = 10283011 / 2 ^ 20 := by
    decide!
  have h := mpu6050_calibrate_accel_f32_constant bus_short_reading I2C_NUM_0 zero_data
    stale_cal (8154112 / 2 ^ 26) 0 (10283018 / 2 ^ 20) (fun _ _ => rfl)
    (fun _ _ => ⟨hx, hy, hz⟩)
  ⟨fun _ _ => rfl, hex, h.1, h.2.1, h.2.2.2.2.2.2.1 hex, h.2.2.2.1.trans hsy,
    h.2.2.2.2.1.trans hsz⟩

end RTimu
